import Mathlib

/-!
# Portfolio page controller (src/js/main.js)

A shallow embedding of the event handlers of src/js/main.js.  The module-level
state and elements objects and the parts of the document the handlers read or write
are gathered in one record, Page; every handler is a function from Page to Page
(paired with a completion when the handler can throw).  Pixel offsets are integers,
times are natural numbers of milliseconds.

Conventions of the embedding:
* the nav toggle, the nav menu, the contact form, its submit button and the btn-text
  child of the button exist (the handlers dereference them without a guard); the header
  and the back-to-top control are optional, as the guards in the source allow;
* getAttribute returns none for a missing attribute, FormData.get returns none
  for a missing field;
* calls to the outside world (window.scrollTo, history.pushState, emailjs.*) are
  recorded in logs carried by the page.
-/

namespace Portfolio

/-! ## Configuration (main.js 16-26) -/

/-- Constants of the config object. -/
structure Config where
  scrollThreshold : Int
  animationDelay : Nat
  animationDuration : Nat
  backToTopThreshold : Int
  scrollOffset : Int
  deriving Repr, DecidableEq

/-- The config object of main.js. -/
def config : Config where
  scrollThreshold := 100
  animationDelay := 100
  animationDuration := 600
  backToTopThreshold := 300
  scrollOffset := 80

/-! ## Data model -/

/-- How a handler finished: normally, or by an uncaught TypeError (a property read or a
method call on null). -/
inductive Completion where
  | normal
  | typeError
  deriving Repr, DecidableEq

/-- An element with the class nav-link: its href attribute, whether it carries the class
active, and whether it is a descendant of the nav menu. -/
structure NavLink where
  href : Option String
  active : Bool
  inMenu : Bool
  deriving Repr, DecidableEq

/-- An element as the offset computations see it: its id attribute, its own offsetTop,
the offsetTop of each element of its offsetParent chain (nearest first) and its
offsetHeight. -/
structure Element where
  id : String
  offsetTop : Int
  parentOffsets : List Int
  offsetHeight : Int
  deriving Repr, DecidableEq

/-- Which element received the last call of focus made by the handlers. -/
inductive Focus where
  | elsewhere
  | navLink (index : Nat)
  | navToggle
  deriving Repr, DecidableEq

/-- The submit button of the contact form: the disabled flag, the text of its btn-text
child and whether it carries the class loading. -/
structure SubmitButton where
  disabled : Bool
  label : String
  loading : Bool
  deriving Repr, DecidableEq

/-- The values FormData yields for the four named fields of the contact form. -/
structure FormFields where
  name : Option String
  email : Option String
  subject : Option String
  message : Option String
  deriving Repr, DecidableEq

/-- A status message element (class form-message): an identity, its text and its type. -/
structure FormMessage where
  uid : Nat
  text : String
  kind : String
  deriving Repr, DecidableEq

/-- The payload handed to the mail relay. -/
structure TemplateParams where
  from_name : Option String
  from_email : Option String
  subject : String
  message : Option String
  to_name : String
  deriving Repr, DecidableEq

/-- A call made on the emailjs global. -/
inductive RelayCall where
  | init (publicKey : String)
  | send (service template : String) (params : TemplateParams)
  deriving Repr, DecidableEq

/-- The state object, the cached elements and the observable document. -/
structure Page where
  /-- Field state.isMenuOpen. -/
  isMenuOpen : Bool
  /-- Field state.currentSection. -/
  currentSection : String
  /-- Field state.isScrolling. -/
  isScrolling : Bool
  /-- The aria-expanded attribute of the nav toggle. -/
  ariaExpanded : Option String
  /-- Whether the nav menu carries the class active. -/
  menuActive : Bool
  /-- The style document.body.style.overflow. -/
  bodyOverflow : String
  /-- Target of the last focus call. -/
  focus : Focus
  /-- The cached nav links, in document order. -/
  navLinks : List NavLink
  /-- Whether the header carries the class scrolled; none when there is no header. -/
  header : Option Bool
  /-- Whether the back-to-top control carries visible; none when it is absent. -/
  backToTop : Option Bool
  /-- The cached sections (section[id]), in document order. -/
  sections : List Element
  /-- The elements of the document that have an id attribute, in document order. -/
  targets : List Element
  /-- Positions passed to window.scrollTo with smooth behaviour, oldest first. -/
  scrollRequests : List Int
  /-- Addresses passed to history.pushState, oldest first. -/
  history : List String
  /-- The submit button of the contact form. -/
  submitButton : SubmitButton
  /-- Current values of the form fields. -/
  fields : FormFields
  /-- Values the form fields take on reset. -/
  defaults : FormFields
  /-- The form-message elements of the document, in document order. -/
  messages : List FormMessage
  /-- Identity given to the next created message element. -/
  nextUid : Nat
  /-- Whether the emailjs global is defined. -/
  relayPresent : Bool
  /-- Calls made on the emailjs global, oldest first. -/
  relayLog : List RelayCall
  /-- Arguments of console.error calls, oldest first. -/
  errorLog : List String
  deriving Repr, DecidableEq

/-- What a handler that takes an event leaves behind: the page, whether preventDefault
was called on the event, and how the handler finished. -/
structure Handled where
  page : Page
  defaultPrevented : Bool
  completion : Completion
  deriving Repr, DecidableEq

/-! ## Utility functions (main.js 95-118) -/

/-- Function getOffsetTop: the sum of offsetTop along the offsetParent chain. -/
def getOffsetTop (e : Element) : Int :=
  (e.offsetTop :: e.parentOffsets).foldl (fun acc top => acc + top) 0

/-- Function smoothScrollTo with an element target; callers that leave the offset out
pass config.scrollOffset. -/
def smoothScrollTo (target : Element) (offset : Int) (p : Page) : Page :=
  { p with scrollRequests := p.scrollRequests ++ [getOffsetTop target - offset] }

/-- Function smoothScrollTo with a numeric target: the offset is not used. -/
def smoothScrollToPosition (target : Int) (p : Page) : Page :=
  { p with scrollRequests := p.scrollRequests ++ [target] }

/-- The string JavaScript makes of a boolean attribute value. -/
def boolAttr (b : Bool) : String :=
  if b then "true" else "false"

/-- Method document.getElementById: the first element whose id is the given one; the
empty string names no element. -/
def getElementById (targets : List Element) (id : String) : Option Element :=
  if id = "" then none else targets.find? (fun e => e.id = id)

/-! ## Navigation (main.js 194-282) -/

/-- Index of the first nav link inside the nav menu: navMenu.querySelector for nav-link. -/
def firstMenuLink (links : List NavLink) : Option Nat :=
  links.findIdx? (fun l => l.inMenu)

/-- Function toggleMobileMenu. The focus call throws when the menu holds no nav link. -/
def toggleMobileMenu (p : Page) : Page × Completion :=
  let isOpen := !p.isMenuOpen
  let p1 : Page :=
    { p with
      isMenuOpen := isOpen
      ariaExpanded := some (boolAttr isOpen)
      menuActive := isOpen
      bodyOverflow := if isOpen then "hidden" else "" }
  if isOpen then
    match firstMenuLink p1.navLinks with
    | some i => ({ p1 with focus := Focus.navLink i }, Completion.normal)
    | none => (p1, Completion.typeError)
  else
    (p1, Completion.normal)

/-- Function closeMobileMenu. -/
def closeMobileMenu (p : Page) : Page :=
  if p.isMenuOpen then
    { p with
      isMenuOpen := false
      ariaExpanded := some "false"
      menuActive := false
      bodyOverflow := "" }
  else p

/-- Function updateActiveNavLink: every link loses active, the links whose href is the
given one get it back. -/
def updateActiveNavLink (activeHref : String) (p : Page) : Page :=
  { p with
    navLinks := p.navLinks.map (fun link =>
      { link with active := decide (link.href = some activeHref) }) }

/-- Function handleNavLinkClick, given the href attribute of the event target. A null
href makes the call of substring throw; substring(1) drops the first character. -/
def handleNavLinkClick (href : Option String) (p : Page) : Handled :=
  match href with
  | none => { page := p, defaultPrevented := true, completion := Completion.typeError }
  | some h =>
    let targetId := h.drop 1
    match getElementById p.targets targetId with
    | some targetElement =>
      let p1 := closeMobileMenu p
      let p2 := updateActiveNavLink h p1
      let p3 := smoothScrollTo targetElement config.scrollOffset p2
      let p4 : Page := { p3 with history := p3.history ++ [h] }
      { page := p4, defaultPrevented := true, completion := Completion.normal }
    | none => { page := p, defaultPrevented := true, completion := Completion.normal }

/-- A click that reaches the listener a nav link carries. The listener is on the link;
event.target is the element the click landed on: the link itself (child is none), or a
descendant of the link, given by its own href attribute, which it may lack. -/
structure NavClick where
  linkHref : Option String
  child : Option (Option String)
  deriving Repr, DecidableEq

/-- The value of event.target.getAttribute for href. -/
def NavClick.targetHref (c : NavClick) : Option String :=
  match c.child with
  | none => c.linkHref
  | some childHref => childHref

/-- The listener handleNavLinkClick of a nav link, run on a click. -/
def onNavLinkClick (c : NavClick) (p : Page) : Handled :=
  handleNavLinkClick c.targetHref p

/-- Function handleOutsideClick, given whether the nav menu and the nav toggle contain
the event target. -/
def handleOutsideClick (inMenu inToggle : Bool) (p : Page) : Page :=
  if p.isMenuOpen && !inMenu && !inToggle then closeMobileMenu p else p

/-- Function handleKeyDown, given the key of the event. -/
def handleKeyDown (key : String) (p : Page) : Page :=
  if key = "Escape" ∧ p.isMenuOpen = true then
    { closeMobileMenu p with focus := Focus.navToggle }
  else p

/-! ## Scroll (main.js 291-356) -/

/-- Function updateHeaderBackground. -/
def updateHeaderBackground (scrollY : Int) (p : Page) : Page :=
  match p.header with
  | none => p
  | some _ => { p with header := some (decide (scrollY > config.scrollThreshold)) }

/-- Function updateBackToTopVisibility. -/
def updateBackToTopVisibility (scrollY : Int) (p : Page) : Page :=
  match p.backToTop with
  | none => p
  | some _ => { p with backToTop := some (decide (scrollY > config.backToTopThreshold)) }

/-- The test of the loop body of updateActiveSection for one section. -/
def sectionContains (scrollY : Int) (s : Element) : Bool :=
  let offset := config.scrollOffset + 50
  let sectionTop := getOffsetTop s - offset
  let sectionHeight := s.offsetHeight
  decide (scrollY ≥ sectionTop) && decide (scrollY < sectionTop + sectionHeight)

/-- The forEach loop of updateActiveSection: the local variable currentSection after
the loop, starting from the empty string. -/
def findCurrentSection (scrollY : Int) (sections : List Element) : String :=
  sections.foldl (fun cur s => if sectionContains scrollY s then s.id else cur) ""

/-- Function updateActiveSection. -/
def updateActiveSection (scrollY : Int) (p : Page) : Page :=
  if p.isScrolling then p
  else
    let currentSection := findCurrentSection scrollY p.sections
    if currentSection ≠ "" ∧ currentSection ≠ p.currentSection then
      updateActiveNavLink ("#" ++ currentSection) { p with currentSection := currentSection }
    else p

/-- Function handleScroll, given window.pageYOffset. -/
def handleScroll (scrollY : Int) (p : Page) : Page :=
  updateActiveSection scrollY (updateBackToTopVisibility scrollY (updateHeaderBackground scrollY p))

/-- Function scrollToTop. -/
def scrollToTop (p : Page) : Page :=
  smoothScrollToPosition 0 p

/-- Function handleResize, given window.innerWidth and window.pageYOffset. -/
def handleResize (innerWidth : Int) (pageYOffset : Int) (p : Page) : Page :=
  let p1 := if decide (innerWidth > 1023) && p.isMenuOpen then closeMobileMenu p else p
  if p1.currentSection ≠ "" then updateActiveSection pageYOffset p1 else p1

/-! ## Contact form (main.js 424-558) -/

/-- JavaScript falsiness of a form value: null or the empty string. -/
def falsy (v : Option String) : Bool :=
  match v with
  | none => true
  | some s => decide (s = "")

/-- Function showFormMessage, up to the timers it starts: the first form-message of the
document is removed and a new element with the given text and type is appended. -/
def showFormMessage (message type : String) (p : Page) : Page :=
  { p with
    messages := p.messages.drop 1 ++ [{ uid := p.nextUid, text := message, kind := type }]
    nextUid := p.nextUid + 1 }

/-- Text shown when a required field is missing. -/
def requiredFieldsText : String := "Please fill in all required fields."

/-- Text shown when the relay accepted the message. -/
def successText : String := "Thank you for your message! I\x27ll get back to you soon."

/-- Text shown when the relay rejected the message. -/
def failureText : String :=
  "Sorry, there was an error sending your message. Please try again or contact me directly via email."

/-- Text shown when the relay is not loaded. -/
def unavailableText : String :=
  "Please contact me directly at your.email@example.com or set up EmailJS service for this form to work."

/-- The templateParams object built from the form fields. -/
def templateParams (f : FormFields) : TemplateParams where
  from_name := f.name
  from_email := f.email
  subject := if falsy f.subject then "Portfolio Contact Form" else f.subject.getD ""
  message := f.message
  to_name := "Portfolio Owner"

/-- The validation test of handleContactFormSubmit: true when a required field is falsy. -/
def validationFails (f : FormFields) : Bool :=
  falsy f.name || falsy f.email || falsy f.message

/-- The button state set by the three lines that restore the submit button. -/
def restoreButton (originalButtonText : String) (p : Page) : Page :=
  { p with submitButton := { disabled := false, label := originalButtonText, loading := false } }

/-- What the synchronous part of handleContactFormSubmit leaves behind: the page, the
preventDefault flag and, when emailjs.send was called, the original button text
captured by the callbacks of the promise. -/
structure Submitted where
  page : Page
  defaultPrevented : Bool
  pending : Option String
  deriving Repr, DecidableEq

/-- Function handleContactFormSubmit up to the point where it returns. -/
def handleContactFormSubmit (p : Page) : Submitted :=
  let originalButtonText := p.submitButton.label
  let params := templateParams p.fields
  if validationFails p.fields then
    { page := showFormMessage requiredFieldsText "error" p
      defaultPrevented := true
      pending := none }
  else
    let p1 : Page :=
      { p with submitButton := { disabled := true, label := "Sending...", loading := true } }
    if p1.relayPresent then
      let p2 : Page :=
        { p1 with
          relayLog := p1.relayLog ++
            [RelayCall.init "BK-GZ78Hg7xAlSaNn",
             RelayCall.send "service_licubcj" "template_ottw5st" params] }
      { page := p2, defaultPrevented := true, pending := some originalButtonText }
    else
      { page := restoreButton originalButtonText (showFormMessage unavailableText "info" p1)
        defaultPrevented := true
        pending := none }

/-- How the promise returned by emailjs.send settles. -/
inductive RelayOutcome where
  | resolved
  | rejected (error : String)
  deriving Repr, DecidableEq

/-- The then, catch and finally callbacks of handleContactFormSubmit, run on the page as
it is when the promise settles. -/
def relaySettled (originalButtonText : String) (outcome : RelayOutcome) (p : Page) : Page :=
  let p1 : Page :=
    match outcome with
    | RelayOutcome.resolved =>
      let q := showFormMessage successText "success" p
      { q with fields := q.defaults }
    | RelayOutcome.rejected error =>
      showFormMessage failureText "error" { p with errorLog := p.errorLog ++ [error] }
  restoreButton originalButtonText p1

/-- A whole submission with nothing running between the call of emailjs.send and the
settling of its promise. -/
def submission (outcome : RelayOutcome) (p : Page) : Page :=
  let r := handleContactFormSubmit p
  match r.pending with
  | some originalButtonText => relaySettled originalButtonText outcome r.page
  | none => r.page

/-- Number of emailjs.send calls in a log of relay calls. -/
def sendCount : List RelayCall → Nat
  | [] => 0
  | RelayCall.send _ _ _ :: cs => sendCount cs + 1
  | RelayCall.init _ :: cs => sendCount cs

/-! ## Throttle (main.js 79-88) -/

/-- What happens to a throttled function: it is called at a time with arguments, or the
event loop runs the oldest pending timer callback at a time. -/
inductive ThrottleEvent (α : Type) where
  | call (time : Nat) (args : α)
  | timer (time : Nat)
  deriving Repr, DecidableEq

/-- The closure of throttle and its surroundings: the time of the last event, the
variable inThrottle, the due times of the timers set and not yet run (oldest first),
and the invocations of func made so far (time and arguments, oldest first). -/
structure ThrottleState (α : Type) where
  now : Nat
  inThrottle : Bool
  pending : List Nat
  invoked : List (Nat × α)
  deriving Repr, DecidableEq

/-- The closure right after throttle(func, limit) returned: inThrottle is undefined. -/
def ThrottleState.init (α : Type) : ThrottleState α where
  now := 0
  inThrottle := false
  pending := []
  invoked := []

/-- One event on a throttled function. The result is none when the event cannot happen:
time runs backwards, or a timer callback runs that was not set or is not yet due. -/
def ThrottleState.step {α : Type} (limit : Nat) (s : ThrottleState α) :
    ThrottleEvent α → Option (ThrottleState α)
  | ThrottleEvent.call t args =>
    if t < s.now then none
    else if !s.inThrottle then
      some
        { now := t
          inThrottle := true
          pending := s.pending ++ [t + limit]
          invoked := s.invoked ++ [(t, args)] }
    else some { s with now := t }
  | ThrottleEvent.timer t =>
    if t < s.now then none
    else
      match s.pending with
      | [] => none
      | due :: rest =>
        if t < due then none
        else some { s with now := t, inThrottle := false, pending := rest }

/-- A sequence of events on a throttled function, from a given closure state. -/
def ThrottleState.run {α : Type} (limit : Nat) (s : ThrottleState α) :
    List (ThrottleEvent α) → Option (ThrottleState α)
  | [] => some s
  | e :: es =>
    match s.step limit e with
    | none => none
    | some s1 => s1.run limit es

/-- The calls of a sequence of events, as time and arguments. -/
def callsOf {α : Type} : List (ThrottleEvent α) → List (Nat × α)
  | [] => []
  | ThrottleEvent.call t args :: es => (t, args) :: callsOf es
  | ThrottleEvent.timer _ :: es => callsOf es

/-- What holds of the closure of throttle after any sequence of events: no invocation
lies in the future, two invocations are at least limit apart, while inThrottle is set
exactly one timer is pending and is due limit after the last invocation, and while it
is not set no timer is pending and every invocation is at least limit old. -/
def ThrottleInv {α : Type} (limit : Nat) (s : ThrottleState α) : Prop :=
  (∀ x ∈ s.invoked, x.1 ≤ s.now) ∧
  s.invoked.Pairwise (fun x y => x.1 + limit ≤ y.1) ∧
  (s.inThrottle = true →
    ∃ earlier last, s.invoked = earlier ++ [last] ∧ s.pending = [last.1 + limit]) ∧
  (s.inThrottle = false → s.pending = [] ∧ ∀ x ∈ s.invoked, x.1 + limit ≤ s.now)

/-! ## Timers of the status message (main.js 546-557) -/

/-- A timer set on behalf of a status message, by the identity of the message element
its callback captured: the callback that starts the fade-out, set by showFormMessage
for 5000 ms later, or the nested callback that removes the element, set by the first
for 300 ms later. -/
inductive MessageTimer where
  | fadeOut (uid : Nat) (due : Nat)
  | remove (uid : Nat) (due : Nat)
  deriving Repr, DecidableEq

/-- The message element the callback of a timer captured. -/
def MessageTimer.uid : MessageTimer → Nat
  | MessageTimer.fadeOut uid _ => uid
  | MessageTimer.remove uid _ => uid

/-- The time a timer is due. -/
def MessageTimer.due : MessageTimer → Nat
  | MessageTimer.fadeOut _ due => due
  | MessageTimer.remove _ due => due

/-- The page together with the clock and the pending timers of status messages, oldest
first. Styles of the message element are not part of the page. -/
structure MessageState where
  now : Nat
  page : Page
  timers : List MessageTimer
  deriving Repr, DecidableEq

/-- What happens around status messages: showFormMessage is called at a time, or the
event loop runs the pending timer at an index at a time. -/
inductive MessageEvent where
  | showMessage (time : Nat) (message type : String)
  | fire (time : Nat) (index : Nat)
  deriving Repr, DecidableEq

/-- The test messageElement.parentNode: whether the element is still in the document. -/
def attached (uid : Nat) (p : Page) : Bool :=
  p.messages.any (fun m => decide (m.uid = uid))

/-- The call messageElement.remove() on the captured element. -/
def removeMessage (uid : Nat) (p : Page) : Page :=
  { p with messages := p.messages.filter (fun m => m.uid ≠ uid) }

/-- One event around status messages. The result is none when the event cannot happen:
time runs backwards, or a timer runs that is not pending or not yet due. -/
def MessageState.step (s : MessageState) : MessageEvent → Option MessageState
  | MessageEvent.showMessage t message type =>
    if t < s.now then none
    else
      some
        { now := t
          page := showFormMessage message type s.page
          timers := s.timers ++ [MessageTimer.fadeOut s.page.nextUid (t + 5000)] }
  | MessageEvent.fire t index =>
    if t < s.now then none
    else
      match s.timers[index]? with
      | none => none
      | some tm =>
        if t < tm.due then none
        else
          let rest := s.timers.eraseIdx index
          match tm with
          | MessageTimer.fadeOut uid _ =>
            if attached uid s.page then
              some { now := t, page := s.page, timers := rest ++ [MessageTimer.remove uid (t + 300)] }
            else some { now := t, page := s.page, timers := rest }
          | MessageTimer.remove uid _ =>
            if attached uid s.page then
              some { now := t, page := removeMessage uid s.page, timers := rest }
            else some { now := t, page := s.page, timers := rest }

/-- A sequence of events around status messages. -/
def MessageState.run (s : MessageState) : List MessageEvent → Option MessageState
  | [] => some s
  | e :: es =>
    match s.step e with
    | none => none
    | some s1 => s1.run es

/-- Element identities are fresh: every message element in the document and every
element a pending timer captured was created before the next one will be. -/
def MessageInv (s : MessageState) : Prop :=
  (∀ m ∈ s.page.messages, m.uid < s.page.nextUid) ∧
  (∀ tm ∈ s.timers, tm.uid < s.page.nextUid)

/-- The identity belongs to one message element: it was given out already, and a message
of the document that has it is that element. -/
def OwnsUid (owner : FormMessage) (s : MessageState) : Prop :=
  owner.uid < s.page.nextUid ∧ ∀ m ∈ s.page.messages, m.uid = owner.uid → m = owner

/-! ## Debounce (main.js 59-71) -/

/-- What happens to a debounced function: it is called at a time with arguments, or the
event loop runs the oldest pending timer callback at a time. -/
inductive DebounceEvent (α : Type) where
  | call (time : Nat) (args : α)
  | timer (time : Nat)
  deriving Repr, DecidableEq

/-- A timer set by the debounced function: the handle setTimeout returned, the time it
is due and the arguments its callback later captured. -/
structure DebounceTimer (α : Type) where
  handle : Nat
  due : Nat
  args : α
  deriving Repr, DecidableEq

/-- The closure of debounce and its surroundings: the time of the last event, the
variable timeout (none for undefined and null), the handle the next setTimeout returns,
the timers set and neither run nor cleared (oldest first), and the invocations of func
made so far (time and arguments, oldest first). -/
structure DebounceState (α : Type) where
  now : Nat
  timeout : Option Nat
  nextHandle : Nat
  pending : List (DebounceTimer α)
  invoked : List (Nat × α)
  deriving Repr, DecidableEq

/-- The closure right after debounce returned: timeout is undefined; timer handles are
positive. -/
def DebounceState.init (α : Type) : DebounceState α where
  now := 0
  timeout := none
  nextHandle := 1
  pending := []
  invoked := []

/-- Function clearTimeout on the pending timers: a handle that names no pending timer,
like undefined and null, clears nothing. -/
def clearTimeout {α : Type} (timeout : Option Nat) (pending : List (DebounceTimer α)) :
    List (DebounceTimer α) :=
  match timeout with
  | none => pending
  | some h => pending.filter (fun tm => tm.handle ≠ h)

/-- One event on a debounced function. The result is none when the event cannot happen:
time runs backwards, or a timer callback runs that is not pending or is not yet due. -/
def DebounceState.step {α : Type} (wait : Nat) (immediate : Bool) (s : DebounceState α) :
    DebounceEvent α → Option (DebounceState α)
  | DebounceEvent.call t args =>
    if t < s.now then none
    else
      let callNow := immediate && s.timeout.isNone
      some
        { now := t
          timeout := some s.nextHandle
          nextHandle := s.nextHandle + 1
          pending :=
            clearTimeout s.timeout s.pending ++
              [{ handle := s.nextHandle, due := t + wait, args := args }]
          invoked := if callNow then s.invoked ++ [(t, args)] else s.invoked }
  | DebounceEvent.timer t =>
    if t < s.now then none
    else
      match s.pending with
      | [] => none
      | tm :: rest =>
        if t < tm.due then none
        else
          some
            { s with
              now := t
              timeout := none
              pending := rest
              invoked := if immediate then s.invoked else s.invoked ++ [(t, tm.args)] }

/-- A sequence of events on a debounced function, from a given closure state. -/
def DebounceState.run {α : Type} (wait : Nat) (immediate : Bool) (s : DebounceState α) :
    List (DebounceEvent α) → Option (DebounceState α)
  | [] => some s
  | e :: es =>
    match s.step wait immediate e with
    | none => none
    | some s1 => s1.run wait immediate es

/-- What holds of the closure of debounce after any sequence of events: at most one
timer is pending, and it is the one the variable timeout names. -/
def DebounceInv {α : Type} (s : DebounceState α) : Prop :=
  s.pending = [] ∨ ∃ tm, s.pending = [tm] ∧ s.timeout = some tm.handle

/-- A burst: calls as time and arguments, each no earlier than the one before and
less than wait after it. -/
def IsBurst {α : Type} (wait : Nat) : List (Nat × α) → Prop
  | [] => True
  | [_] => True
  | x :: y :: rest => x.1 ≤ y.1 ∧ y.1 < x.1 + wait ∧ IsBurst wait (y :: rest)

/-- The calls of a burst as events. -/
def burstEvents {α : Type} (burst : List (Nat × α)) : List (DebounceEvent α) :=
  burst.map (fun c => DebounceEvent.call c.1 c.2)

/-! ## Reveal on scroll (main.js 126-130, 381-392) -/

/-- An entry reported to the visibility observer callback: the observed element, by
identity, and its isIntersecting flag. -/
structure ObserverEntry where
  target : Nat
  isIntersecting : Bool
  deriving Repr, DecidableEq

/-- A timer set by addClassWithDelay: the element, the class to add and the delay. -/
structure ClassTimer where
  target : Nat
  className : String
  delay : Nat
  deriving Repr, DecidableEq

/-- The observer of state.animatedElementsObserver and the timers set on its behalf: the
elements under observation and the timers of addClassWithDelay, oldest first. -/
structure ObserverState where
  observed : List Nat
  timers : List ClassTimer
  deriving Repr, DecidableEq

/-- Function addClassWithDelay: a timer that adds the class after the delay. -/
def addClassWithDelay (target : Nat) (className : String) (delay : Nat)
    (s : ObserverState) : ObserverState :=
  { s with timers := s.timers ++ [{ target := target, className := className, delay := delay }] }

/-- Method unobserve of the observer. -/
def unobserve (target : Nat) (s : ObserverState) : ObserverState :=
  { s with observed := s.observed.filter (fun x => x ≠ target) }

/-- The body of the forEach of the observer callback for one entry and its index. -/
def observeEntry (index : Nat) (entry : ObserverEntry) (s : ObserverState) : ObserverState :=
  if entry.isIntersecting then
    let delay := index * config.animationDelay
    unobserve entry.target (addClassWithDelay entry.target "fade-in" delay s)
  else s

/-- The forEach of the observer callback over the entries that remain, the first of
which has the given index. -/
def observeEntries : Nat → List ObserverEntry → ObserverState → ObserverState
  | _, [], s => s
  | index, entry :: rest, s => observeEntries (index + 1) rest (observeEntry index entry s)

/-- The callback passed to the IntersectionObserver, run on one batch of entries. -/
def observerCallback (entries : List ObserverEntry) (s : ObserverState) : ObserverState :=
  observeEntries 0 entries s

/-- A batch as the platform delivers it: the observer reports entries for elements under
observation only, so a batch naming an element that is not observed cannot happen. -/
def deliver (s : ObserverState) (entries : List ObserverEntry) : Option ObserverState :=
  if entries.all (fun e => decide (e.target ∈ s.observed)) then
    some (observerCallback entries s)
  else none

/-- A sequence of batches delivered one after the other. -/
def deliverAll (s : ObserverState) : List (List ObserverEntry) → Option ObserverState
  | [] => some s
  | batch :: rest =>
    match deliver s batch with
    | none => none
    | some s1 => deliverAll s1 rest

/-- Whether a batch holds an intersecting entry for the element. -/
def reveals (target : Nat) (entries : List ObserverEntry) : Bool :=
  entries.any (fun e => decide (e.target = target) && e.isIntersecting)

/-- The timers the callback sets for a batch whose first entry has the given index: one
per intersecting entry, with the delay index times animationDelay. -/
def revealTimers : Nat → List ObserverEntry → List ClassTimer
  | _, [] => []
  | index, entry :: rest =>
    if entry.isIntersecting then
      { target := entry.target, className := "fade-in", delay := index * 100 } ::
        revealTimers (index + 1) rest
    else revealTimers (index + 1) rest

/-! ## Menu events -/

/-- The events that reach the menu handlers. -/
inductive MenuEvent where
  | toggle
  | close
  | outsideClick (inMenu inToggle : Bool)
  | keyDown (key : String)
  | resize (innerWidth pageYOffset : Int)
  deriving Repr, DecidableEq

/-- The page after the handler of a menu event ran. -/
def MenuEvent.apply (p : Page) : MenuEvent → Page
  | MenuEvent.toggle => (toggleMobileMenu p).1
  | MenuEvent.close => closeMobileMenu p
  | MenuEvent.outsideClick inMenu inToggle => handleOutsideClick inMenu inToggle p
  | MenuEvent.keyDown key => handleKeyDown key p
  | MenuEvent.resize innerWidth pageYOffset => handleResize innerWidth pageYOffset p

/-- The page after a sequence of menu events. -/
def runMenuEvents (p : Page) (events : List MenuEvent) : Page :=
  events.foldl MenuEvent.apply p

/-- The three records of the open menu agree: isMenuOpen, the class active of the nav
menu, and the value true of aria-expanded on the toggle. -/
def MenuAgrees (p : Page) : Prop :=
  (p.isMenuOpen = true ↔ p.menuActive = true) ∧
  (p.menuActive = true ↔ p.ariaExpanded = some "true")

instance (p : Page) : Decidable (MenuAgrees p) := by
  unfold MenuAgrees; infer_instance

/-! ## Sample inputs -/

/-- A page with the menu closed, two nav links, two sections and an empty form. -/
def samplePage : Page where
  isMenuOpen := false
  currentSection := "home"
  isScrolling := false
  ariaExpanded := some "false"
  menuActive := false
  bodyOverflow := ""
  focus := Focus.elsewhere
  navLinks :=
    [{ href := some "#home", active := true, inMenu := true },
     { href := some "#about", active := false, inMenu := true }]
  header := some false
  backToTop := some false
  sections :=
    [{ id := "home", offsetTop := 0, parentOffsets := [], offsetHeight := 600 },
     { id := "about", offsetTop := 600, parentOffsets := [], offsetHeight := 800 }]
  targets :=
    [{ id := "home", offsetTop := 0, parentOffsets := [], offsetHeight := 600 },
     { id := "about", offsetTop := 600, parentOffsets := [], offsetHeight := 800 }]
  scrollRequests := []
  history := []
  submitButton := { disabled := false, label := "Send Message", loading := false }
  fields := { name := some "", email := some "", subject := some "", message := some "" }
  defaults := { name := some "", email := some "", subject := some "", message := some "" }
  messages := []
  nextUid := 0
  relayPresent := false
  relayLog := []
  errorLog := []

/-- Two sections whose ranges overlap between the document offsets 500 and 1000. -/
def overlappingSections : List Element :=
  [{ id := "about", offsetTop := 0, parentOffsets := [], offsetHeight := 1000 },
   { id := "projects", offsetTop := 500, parentOffsets := [], offsetHeight := 1000 }]

/-- The sample page with the form filled in. -/
def filledPage : Page :=
  { samplePage with
    fields :=
      { name := some "A", email := some "a@b.com", subject := some "", message := some "hi" } }

/-- The sample page with the menu open and a target whose offsetParent chain is not
empty. -/
def openPage : Page :=
  { (toggleMobileMenu samplePage).1 with
    targets :=
      [{ id := "home", offsetTop := 0, parentOffsets := [], offsetHeight := 600 },
       { id := "about", offsetTop := 40, parentOffsets := [560, 10], offsetHeight := 800 }] }

/-- A burst on a function throttled to 16 ms: two calls in the first window, the timer,
then two calls in the second window. -/
def sampleBurst : List (ThrottleEvent String) :=
  [ThrottleEvent.call 0 "a", ThrottleEvent.call 5 "b", ThrottleEvent.timer 16,
   ThrottleEvent.call 20 "c", ThrottleEvent.call 30 "d"]

/-- A batch of three entries: the elements 4 and 9 entered the viewport, 7 did not. -/
def sampleBatch : List ObserverEntry :=
  [{ target := 4, isIntersecting := true },
   { target := 7, isIntersecting := false },
   { target := 9, isIntersecting := true }]

/-- An observer watching the elements 4, 7 and 9, with no timer set. -/
def sampleObserver : ObserverState where
  observed := [4, 7, 9]
  timers := []

/-- Three resize events 100 ms apart. -/
def sampleResizes : List (Nat × String) :=
  [(1000, "r1"), (1100, "r2"), (1200, "r3")]

/-- The sample page at time 0 with no timer pending. -/
def sampleMessages : MessageState where
  now := 0
  page := samplePage
  timers := []

/-- A click on the nav link to about that lands on an icon inside the link; the icon has
no href attribute. -/
def iconClick : NavClick where
  linkHref := some "#about"
  child := some none

/-- The sample page holding two status messages at time 0, with no timer pending. -/
def crowdedMessages : MessageState where
  now := 0
  page :=
    { samplePage with
      messages :=
        [{ uid := 0, text := "old one", kind := "info" },
         { uid := 1, text := "old two", kind := "error" }]
      nextUid := 2 }
  timers := []

/-! ## Lemmas on the menu handlers -/

theorem updateActiveNavLink_menu (h : String) (p : Page) :
    (updateActiveNavLink h p).isMenuOpen = p.isMenuOpen ∧
    (updateActiveNavLink h p).menuActive = p.menuActive ∧
    (updateActiveNavLink h p).ariaExpanded = p.ariaExpanded ∧
    (updateActiveNavLink h p).bodyOverflow = p.bodyOverflow := by
  simp [updateActiveNavLink]

theorem updateActiveSection_menu (s : Int) (p : Page) :
    (updateActiveSection s p).isMenuOpen = p.isMenuOpen ∧
    (updateActiveSection s p).menuActive = p.menuActive ∧
    (updateActiveSection s p).ariaExpanded = p.ariaExpanded ∧
    (updateActiveSection s p).bodyOverflow = p.bodyOverflow := by
  unfold updateActiveSection
  by_cases h1 : p.isScrolling = true
  · simp [h1]
  · by_cases h2 : findCurrentSection s p.sections ≠ "" ∧
        findCurrentSection s p.sections ≠ p.currentSection
    · simp [h1, h2, updateActiveNavLink]
    · simp [h1, h2]

theorem updateActiveSection_agrees (s : Int) (p : Page) (h : MenuAgrees p) :
    MenuAgrees (updateActiveSection s p) := by
  obtain ⟨h1, h2, h3, _⟩ := updateActiveSection_menu s p
  unfold MenuAgrees at *
  rw [h1, h2, h3]
  exact h

theorem closeMobileMenu_agrees (p : Page) (h : MenuAgrees p) :
    MenuAgrees (closeMobileMenu p) := by
  unfold closeMobileMenu
  split
  · simp [MenuAgrees]
  · exact h

theorem toggleMobileMenu_agrees (p : Page) : MenuAgrees (toggleMobileMenu p).1 := by
  unfold toggleMobileMenu
  cases hopen : p.isMenuOpen
  · simp only [Bool.not_false, if_true]
    cases firstMenuLink p.navLinks <;> simp [MenuAgrees, boolAttr]
  · simp [MenuAgrees, boolAttr]

theorem MenuEvent.apply_agrees (p : Page) (e : MenuEvent) (h : MenuAgrees p) :
    MenuAgrees (MenuEvent.apply p e) := by
  cases e with
  | toggle => exact toggleMobileMenu_agrees p
  | close => exact closeMobileMenu_agrees p h
  | outsideClick inMenu inToggle =>
    simp only [MenuEvent.apply, handleOutsideClick]
    split
    · exact closeMobileMenu_agrees p h
    · exact h
  | keyDown key =>
    simp only [MenuEvent.apply, handleKeyDown]
    split
    · have hc := closeMobileMenu_agrees p h
      simpa [MenuAgrees] using hc
    · exact h
  | resize innerWidth pageYOffset =>
    have h1 : MenuAgrees
        (if (decide (innerWidth > 1023) && p.isMenuOpen) = true then closeMobileMenu p else p) := by
      split
      · exact closeMobileMenu_agrees p h
      · exact h
    simp only [MenuEvent.apply, handleResize]
    generalize (if (decide (innerWidth > 1023) && p.isMenuOpen) = true
      then closeMobileMenu p else p) = p1 at h1 ⊢
    by_cases h2 : p1.currentSection ≠ ""
    · rw [if_pos h2]
      exact updateActiveSection_agrees _ _ h1
    · rw [if_neg h2]
      exact h1

/-! ## Claims -/

/-- C1. Menu invariant: from a page on which isMenuOpen, the class active of the nav menu
and the value true of aria-expanded agree, every page reached through toggleMobileMenu,
closeMobileMenu, handleOutsideClick, handleKeyDown and handleResize has them agree; and
toggleMobileMenu makes them agree whatever the page before. -/
theorem menu_invariant (p : Page) (events : List MenuEvent) (h : MenuAgrees p) :
    MenuAgrees (runMenuEvents p events) ∧ ∀ q : Page, MenuAgrees (toggleMobileMenu q).1 := by
  refine ⟨?_, toggleMobileMenu_agrees⟩
  unfold runMenuEvents
  induction events generalizing p with
  | nil => exact h
  | cons e es ih => exact ih (MenuEvent.apply p e) (MenuEvent.apply_agrees p e h)

/-- C1 at a concrete page and event sequence: toggle, a click outside, toggle, Escape. -/
theorem menu_invariant_witness :
    MenuAgrees samplePage ∧
    (MenuAgrees (runMenuEvents samplePage
        [MenuEvent.toggle, MenuEvent.outsideClick false false, MenuEvent.toggle,
         MenuEvent.keyDown "Escape"]) ∧
      ∀ q : Page, MenuAgrees (toggleMobileMenu q).1) :=
  ⟨by decide, menu_invariant samplePage _ (by decide)⟩

/-- C2. Function closeMobileMenu is idempotent: on a page with isMenuOpen false it changes
nothing (so isMenuOpen, aria-expanded, the class active of the menu and the body overflow
are as before), and on every page calling it twice gives the page calling it once gives. -/
theorem closeMobileMenu_idempotent (p : Page) :
    (p.isMenuOpen = false →
      closeMobileMenu p = p ∧
      (closeMobileMenu p).isMenuOpen = p.isMenuOpen ∧
      (closeMobileMenu p).ariaExpanded = p.ariaExpanded ∧
      (closeMobileMenu p).menuActive = p.menuActive ∧
      (closeMobileMenu p).bodyOverflow = p.bodyOverflow) ∧
    closeMobileMenu (closeMobileMenu p) = closeMobileMenu p := by
  constructor
  · intro h
    have hp : closeMobileMenu p = p := by simp [closeMobileMenu, h]
    simp [hp]
  · cases h : p.isMenuOpen <;> simp [closeMobileMenu, h]

/-- C2 at the sample page, whose menu is closed. -/
theorem closeMobileMenu_idempotent_witness :
    closeMobileMenu samplePage = samplePage ∧
    closeMobileMenu (closeMobileMenu (toggleMobileMenu samplePage).1) =
      closeMobileMenu (toggleMobileMenu samplePage).1 :=
  ⟨((closeMobileMenu_idempotent samplePage).1 (by decide)).1,
   (closeMobileMenu_idempotent (toggleMobileMenu samplePage).1).2⟩

/-! ## Lemmas on the scroll handlers -/

theorem updateActiveSection_scrollMarks (s : Int) (p : Page) :
    (updateActiveSection s p).header = p.header ∧
    (updateActiveSection s p).backToTop = p.backToTop := by
  unfold updateActiveSection
  by_cases h1 : p.isScrolling = true
  · simp [h1]
  · by_cases h2 : findCurrentSection s p.sections ≠ "" ∧
        findCurrentSection s p.sections ≠ p.currentSection
    · simp [h1, h2, updateActiveNavLink]
    · simp [h1, h2]

theorem handleScroll_header (s : Int) (p : Page) (h0 : Bool) (hh : p.header = some h0) :
    (handleScroll s p).header = some (decide (s > 100)) := by
  unfold handleScroll
  rw [(updateActiveSection_scrollMarks s _).1]
  unfold updateBackToTopVisibility
  cases hb : (updateHeaderBackground s p).backToTop <;>
    simp [updateHeaderBackground, hh, config]

theorem handleScroll_backToTop (s : Int) (p : Page) (b0 : Bool) (hb : p.backToTop = some b0) :
    (handleScroll s p).backToTop = some (decide (s > 300)) := by
  unfold handleScroll
  rw [(updateActiveSection_scrollMarks s _).2]
  have h1 : (updateHeaderBackground s p).backToTop = some b0 := by
    unfold updateHeaderBackground
    cases p.header <;> simp [hb]
  simp [updateBackToTopVisibility, h1, config]

/-- The loop of updateActiveSection from any starting value: the id of the last section
that contains the offset, or the starting value when there is none. -/
theorem foldl_section_last (s : Int) (sections : List Element) (cur : String) :
    sections.foldl (fun cur e => if sectionContains s e then e.id else cur) cur =
      (((sections.filter (sectionContains s)).getLast?).map Element.id).getD cur := by
  induction sections using List.reverseRecOn with
  | nil => simp
  | append_singleton xs x ih =>
    rw [List.foldl_append, ih, List.filter_append]
    by_cases hx : sectionContains s x = true
    · simp [hx]
    · simp [hx]

/-- C3. After handleScroll ran with offset s on a page that has a header and a
back-to-top control, the header carries scrolled iff s > 100 and the control carries
visible iff s > 300, whatever their classes before; the class is absent at 100 and 300
and present at 101 and 301. -/
theorem scroll_thresholds (s : Int) (p : Page) (h0 b0 : Bool)
    (hh : p.header = some h0) (hb : p.backToTop = some b0) :
    ((handleScroll s p).header = some true ↔ s > config.scrollThreshold) ∧
    ((handleScroll s p).header = some false ↔ ¬ s > config.scrollThreshold) ∧
    ((handleScroll s p).backToTop = some true ↔ s > config.backToTopThreshold) ∧
    ((handleScroll s p).backToTop = some false ↔ ¬ s > config.backToTopThreshold) ∧
    (handleScroll 100 p).header = some false ∧
    (handleScroll 101 p).header = some true ∧
    (handleScroll 300 p).backToTop = some false ∧
    (handleScroll 301 p).backToTop = some true := by
  simp only [handleScroll_header _ p h0 hh, handleScroll_backToTop _ p b0 hb, config]
  simp

/-- C3 at the sample page with the header marked scrolled beforehand, at offset 250. -/
theorem scroll_thresholds_witness :
    (handleScroll 250 { samplePage with header := some true }).header = some true ∧
    (handleScroll 250 { samplePage with header := some true }).backToTop = some false := by
  have h := scroll_thresholds 250 { samplePage with header := some true } true false rfl rfl
  exact ⟨h.1.2 (by decide), h.2.2.2.1.2 (by decide)⟩

/-- C4 as stated fails: with two overlapping sections that both contain the test offset,
the loop of updateActiveSection ends on the second, not on the first in document order. -/
theorem first_match_does_not_win :
    (overlappingSections.filter (sectionContains 600)).map Element.id = ["about", "projects"] ∧
    findCurrentSection 600 overlappingSections = "projects" ∧
    (updateActiveSection 600 { samplePage with sections := overlappingSections }).currentSection
      = "projects" ∧
    ¬ (∀ (s : Int) (sections : List Element) (first : Element),
        sections.find? (sectionContains s) = some first →
        findCurrentSection s sections = first.id) := by
  refine ⟨by decide, by decide, by decide, ?_⟩
  intro h
  have h1 := h 600 overlappingSections
    { id := "about", offsetTop := 0, parentOffsets := [], offsetHeight := 1000 } (by decide)
  revert h1
  decide

/-- C4, amended. Active-section selection is order-stable with the last match winning:
for every scroll offset and every list of sections in document order, when one or more
sections contain the test offset, the loop of updateActiveSection ends on the id of the
last of them in document order; and when the isScrolling guard is not set and that id
is not empty, state.currentSection is that id afterwards. -/
theorem last_match_wins (s : Int) (sections : List Element) (last : Element)
    (h : (sections.filter (sectionContains s)).getLast? = some last) :
    findCurrentSection s sections = last.id ∧
    ∀ p : Page, p.sections = sections → p.isScrolling = false → last.id ≠ "" →
      (updateActiveSection s p).currentSection = last.id := by
  have hf : findCurrentSection s sections = last.id := by
    unfold findCurrentSection
    rw [foldl_section_last, h]
    rfl
  refine ⟨hf, ?_⟩
  intro p hp hs hid
  unfold updateActiveSection
  rw [hp, hf]
  by_cases hc : last.id = p.currentSection
  · simp [hs, hc]
  · simp [hs, hid, hc, updateActiveNavLink]

/-- C4 amended, at the two overlapping sections and scroll offset 600. -/
theorem last_match_wins_witness :
    findCurrentSection 600 overlappingSections = "projects" ∧
    ∀ p : Page, p.sections = overlappingSections → p.isScrolling = false →
      "projects" ≠ "" → (updateActiveSection 600 p).currentSection = "projects" :=
  last_match_wins 600 overlappingSections
    { id := "projects", offsetTop := 500, parentOffsets := [], offsetHeight := 1000 }
    (by decide)

/-! ## Lemmas on the contact form -/

theorem sendCount_append (xs ys : List RelayCall) :
    sendCount (xs ++ ys) = sendCount xs + sendCount ys := by
  induction xs with
  | nil => simp [sendCount]
  | cons x xs ih =>
    cases x with
    | init key => simp [sendCount, ih]
    | send service template params => simp [sendCount, ih]; omega

theorem handleContactFormSubmit_invalid (p : Page) (h : validationFails p.fields = true) :
    handleContactFormSubmit p =
      { page := showFormMessage requiredFieldsText "error" p
        defaultPrevented := true
        pending := none } := by
  simp [handleContactFormSubmit, h]

theorem relaySettled_button (orig : String) (o : RelayOutcome) (q : Page) :
    (relaySettled orig o q).submitButton = { disabled := false, label := orig, loading := false } := by
  cases o <;> simp [relaySettled, restoreButton]

/-- C5. When the name, the email or the message field of a submission is empty,
handleContactFormSubmit shows the error message asking for the required fields (after
removing the first message already there), calls neither emailjs.init nor emailjs.send
and leaves no request in flight, and leaves the submit button as it was: disabled flag,
label and class loading. -/
theorem validation_failure (p : Page)
    (h : p.fields.name = some "" ∨ p.fields.email = some "" ∨ p.fields.message = some "") :
    (handleContactFormSubmit p).page.messages =
      p.messages.drop 1 ++
        [{ uid := p.nextUid, text := "Please fill in all required fields.", kind := "error" }] ∧
    (handleContactFormSubmit p).page.relayLog = p.relayLog ∧
    (handleContactFormSubmit p).pending = none ∧
    (handleContactFormSubmit p).page.submitButton = p.submitButton ∧
    ∀ o : RelayOutcome, submission o p = (handleContactFormSubmit p).page := by
  have hv : validationFails p.fields = true := by
    rcases h with h | h | h <;> simp [validationFails, falsy, h]
  have hs := handleContactFormSubmit_invalid p hv
  refine ⟨?_, ?_, ?_, ?_, ?_⟩
  · rw [hs]; simp [showFormMessage, requiredFieldsText]
  · rw [hs]; simp [showFormMessage]
  · rw [hs]
  · rw [hs]; simp [showFormMessage]
  · intro o
    simp [submission, hs]

/-- C5 at the sample page, whose form is empty. -/
theorem validation_failure_witness :
    (handleContactFormSubmit samplePage).page.messages =
      [{ uid := 0, text := "Please fill in all required fields.", kind := "error" }] ∧
    (handleContactFormSubmit samplePage).page.relayLog = [] ∧
    (handleContactFormSubmit samplePage).page.submitButton = samplePage.submitButton := by
  have h := validation_failure samplePage (Or.inl rfl)
  exact ⟨h.1, h.2.1, h.2.2.2.1⟩

/-- C6. For a submission that passes validation the status message depends on the relay
outcome alone. Relay absent: one info message is shown, no relay call is made and no
request is left in flight. Relay present: the handler shows nothing itself and calls
emailjs.send once; when the promise resolves the success message is shown and the fields
are reset; when it rejects the generic error message is shown and the fields are kept;
the callbacks make no relay call. In every case the number of emailjs.send calls grows
by at most one. -/
theorem relay_outcome_decides (p : Page) (h : validationFails p.fields = false) :
    (p.relayPresent = false →
      (handleContactFormSubmit p).pending = none ∧
      (handleContactFormSubmit p).page.relayLog = p.relayLog ∧
      (handleContactFormSubmit p).page.messages =
        p.messages.drop 1 ++ [{ uid := p.nextUid, text := unavailableText, kind := "info" }]) ∧
    (p.relayPresent = true →
      (handleContactFormSubmit p).pending = some p.submitButton.label ∧
      (handleContactFormSubmit p).page.messages = p.messages ∧
      (handleContactFormSubmit p).page.fields = p.fields ∧
      (handleContactFormSubmit p).page.relayLog =
        p.relayLog ++
          [RelayCall.init "BK-GZ78Hg7xAlSaNn",
           RelayCall.send "service_licubcj" "template_ottw5st" (templateParams p.fields)]) ∧
    (∀ (orig : String) (q : Page),
      (relaySettled orig RelayOutcome.resolved q).messages =
        q.messages.drop 1 ++ [{ uid := q.nextUid, text := successText, kind := "success" }] ∧
      (relaySettled orig RelayOutcome.resolved q).fields = q.defaults ∧
      (relaySettled orig RelayOutcome.resolved q).relayLog = q.relayLog) ∧
    (∀ (orig error : String) (q : Page),
      (relaySettled orig (RelayOutcome.rejected error) q).messages =
        q.messages.drop 1 ++ [{ uid := q.nextUid, text := failureText, kind := "error" }] ∧
      (relaySettled orig (RelayOutcome.rejected error) q).fields = q.fields ∧
      (relaySettled orig (RelayOutcome.rejected error) q).relayLog = q.relayLog) ∧
    (∀ o : RelayOutcome,
      sendCount (submission o p).relayLog ≤ sendCount p.relayLog + 1) := by
  refine ⟨?_, ?_, ?_, ?_, ?_⟩
  · intro hr
    simp [handleContactFormSubmit, h, hr, restoreButton, showFormMessage]
  · intro hr
    simp [handleContactFormSubmit, h, hr]
  · intro orig q
    simp [relaySettled, restoreButton, showFormMessage]
  · intro orig error q
    simp [relaySettled, restoreButton, showFormMessage]
  · intro o
    cases hr : p.relayPresent
    · simp [submission, handleContactFormSubmit, h, hr, restoreButton, showFormMessage]
    · cases o <;>
        simp [submission, handleContactFormSubmit, h, hr, relaySettled, restoreButton,
          showFormMessage, sendCount_append, sendCount]

/-- C6 at the filled sample page, without the relay and with it. -/
theorem relay_outcome_decides_witness :
    (handleContactFormSubmit filledPage).page.messages =
      [{ uid := 0, text := unavailableText, kind := "info" }] ∧
    (handleContactFormSubmit { filledPage with relayPresent := true }).pending =
      some "Send Message" :=
  ⟨((relay_outcome_decides filledPage (by decide)).1 rfl).2.2,
   ((relay_outcome_decides { filledPage with relayPresent := true } (by decide)).2.1 rfl).1⟩

/-- C7. A submission starts with the submit button enabled and without the class
loading. In every terminal case the button then ends enabled, without the class loading
and with the label it had when the submission started: on validation failure, where the
handler leaves the button alone; with the relay absent; and with the relay present,
when the promise resolves and when it rejects, whatever ran between the send and the
settling of the promise. -/
theorem button_restored (p : Page) (o : RelayOutcome)
    (henabled : p.submitButton.disabled = false) (hloading : p.submitButton.loading = false) :
    (validationFails p.fields = true →
      (handleContactFormSubmit p).pending = none ∧
      (handleContactFormSubmit p).page.submitButton =
        { disabled := false, label := p.submitButton.label, loading := false }) ∧
    (validationFails p.fields = false → p.relayPresent = false →
      (handleContactFormSubmit p).pending = none ∧
      (handleContactFormSubmit p).page.submitButton =
        { disabled := false, label := p.submitButton.label, loading := false }) ∧
    (validationFails p.fields = false → p.relayPresent = true →
      (handleContactFormSubmit p).pending = some p.submitButton.label ∧
      (∀ q : Page, (relaySettled p.submitButton.label RelayOutcome.resolved q).submitButton =
        { disabled := false, label := p.submitButton.label, loading := false }) ∧
      (∀ (error : String) (q : Page),
        (relaySettled p.submitButton.label (RelayOutcome.rejected error) q).submitButton =
          { disabled := false, label := p.submitButton.label, loading := false })) ∧
    (submission o p).submitButton =
      { disabled := false, label := p.submitButton.label, loading := false } := by
  have hbutton : p.submitButton =
      { disabled := false, label := p.submitButton.label, loading := false } := by
    cases hb : p.submitButton with
    | mk d l g =>
      rw [hb] at henabled hloading
      simp only at henabled hloading
      rw [henabled, hloading]
  refine ⟨?_, ?_, ?_, ?_⟩
  · intro h
    have hs := handleContactFormSubmit_invalid p h
    rw [hs]
    exact ⟨rfl, by simpa [showFormMessage] using hbutton⟩
  · intro h hr
    simp [handleContactFormSubmit, h, hr, restoreButton, showFormMessage]
  · intro h hr
    refine ⟨by simp [handleContactFormSubmit, h, hr], ?_, ?_⟩
    · intro q
      exact relaySettled_button _ _ q
    · intro error q
      exact relaySettled_button _ _ q
  · cases hv : validationFails p.fields
    · cases hr : p.relayPresent
      · simp [submission, handleContactFormSubmit, hv, hr, restoreButton, showFormMessage]
      · simp [submission, handleContactFormSubmit, hv, hr, relaySettled_button]
    · have hs := handleContactFormSubmit_invalid p hv
      simpa [submission, hs, showFormMessage] using hbutton

/-- C7 at the sample page: with the form filled and the relay rejecting, and with the
form empty, the button ends enabled, not loading and labelled as at the start. -/
theorem button_restored_witness :
    (submission (RelayOutcome.rejected "timeout") { filledPage with relayPresent := true }).submitButton
      = { disabled := false, label := "Send Message", loading := false } ∧
    (submission RelayOutcome.resolved samplePage).submitButton =
      { disabled := false, label := "Send Message", loading := false } :=
  ⟨(button_restored { filledPage with relayPresent := true }
      (RelayOutcome.rejected "timeout") rfl rfl).2.2.2,
   (button_restored samplePage RelayOutcome.resolved rfl rfl).2.2.2⟩

/-! ## Lemmas on nav link clicks -/

theorem drop_hash (id : String) : ("#" ++ id).drop 1 = id := by
  rw [String.drop_eq]
  rfl

theorem getElementById_of_mem (targets : List Element) (e : Element)
    (he : e ∈ targets) (hid : e.id ≠ "") :
    ∃ target, getElementById targets e.id = some target ∧ target.id = e.id := by
  unfold getElementById
  rw [if_neg hid]
  cases hf : targets.find? (fun x => decide (x.id = e.id)) with
  | none =>
    rw [List.find?_eq_none] at hf
    exact absurd (by simp) (hf e he)
  | some t =>
    refine ⟨t, rfl, ?_⟩
    have := List.find?_some hf
    simpa using this

theorem closeMobileMenu_closed (p : Page) :
    (closeMobileMenu p).isMenuOpen = false ∧
    (closeMobileMenu p).navLinks = p.navLinks ∧
    (closeMobileMenu p).scrollRequests = p.scrollRequests ∧
    (closeMobileMenu p).history = p.history := by
  cases h : p.isMenuOpen <;> simp [closeMobileMenu, h]

theorem handleNavLinkClick_found (p : Page) (h : String) (target : Element)
    (hf : getElementById p.targets (h.drop 1) = some target) :
    handleNavLinkClick (some h) p =
      { page :=
          { smoothScrollTo target config.scrollOffset
              (updateActiveNavLink h (closeMobileMenu p)) with
            history := p.history ++ [h] }
        defaultPrevented := true
        completion := Completion.normal } := by
  simp [handleNavLinkClick, hf, smoothScrollTo, updateActiveNavLink,
    (closeMobileMenu_closed p).2.2.2]

/-- Clicks that land on the link itself. After handleNavLinkClick with an href that is a
hash sign followed by the id of an element of the document as the href of event.target:
the handler finished normally, isMenuOpen is false,
the nav links are the same links with active carried by exactly those whose href is the
clicked href, a smooth scroll to the document offset of the target minus 80 was
requested, and the href was pushed as the address. -/
theorem nav_click (p : Page) (e : Element) (href : String)
    (he : e ∈ p.targets) (hid : e.id ≠ "") (hhref : href = "#" ++ e.id) :
    ∃ target, getElementById p.targets e.id = some target ∧ target.id = e.id ∧
      (handleNavLinkClick (some href) p).completion = Completion.normal ∧
      (handleNavLinkClick (some href) p).page.isMenuOpen = false ∧
      (handleNavLinkClick (some href) p).page.navLinks.map NavLink.href =
        p.navLinks.map NavLink.href ∧
      (∀ l ∈ (handleNavLinkClick (some href) p).page.navLinks,
        (l.active = true ↔ l.href = some href)) ∧
      (handleNavLinkClick (some href) p).page.scrollRequests =
        p.scrollRequests ++ [getOffsetTop target - 80] ∧
      (handleNavLinkClick (some href) p).page.history = p.history ++ [href] := by
  obtain ⟨target, hfind, htid⟩ := getElementById_of_mem p.targets e he hid
  have hf : getElementById p.targets (href.drop 1) = some target := by
    rw [hhref, drop_hash]; exact hfind
  obtain ⟨hc1, hc2, hc3, _⟩ := closeMobileMenu_closed p
  refine ⟨target, hfind, htid, ?_⟩
  rw [handleNavLinkClick_found p href target hf]
  refine ⟨rfl, ?_, ?_, ?_, ?_, rfl⟩
  · simpa [smoothScrollTo, updateActiveNavLink] using hc1
  · simp [smoothScrollTo, updateActiveNavLink, hc2, Function.comp_def]
  · intro l hl
    simp only [smoothScrollTo, updateActiveNavLink, hc2, List.mem_map] at hl
    obtain ⟨l0, _, rfl⟩ := hl
    simp
  · simp [smoothScrollTo, updateActiveNavLink, hc3, config]

/-- The sample page with the menu open: a click landing on the link to about itself. -/
theorem nav_click_witness :
    ∃ target, getElementById openPage.targets "about" = some target ∧ target.id = "about" ∧
      (handleNavLinkClick (some "#about") openPage).completion = Completion.normal ∧
      (handleNavLinkClick (some "#about") openPage).page.isMenuOpen = false ∧
      (handleNavLinkClick (some "#about") openPage).page.navLinks.map NavLink.href =
        openPage.navLinks.map NavLink.href ∧
      (∀ l ∈ (handleNavLinkClick (some "#about") openPage).page.navLinks,
        (l.active = true ↔ l.href = some "#about")) ∧
      (handleNavLinkClick (some "#about") openPage).page.scrollRequests =
        openPage.scrollRequests ++ [getOffsetTop target - 80] ∧
      (handleNavLinkClick (some "#about") openPage).page.history =
        openPage.history ++ ["#about"] :=
  nav_click openPage
    { id := "about", offsetTop := 40, parentOffsets := [560, 10], offsetHeight := 800 }
    "#about" (by decide) (by decide) (by decide)

/-- C8, where the code departs from it. A click on the nav link whose href is the hash
sign followed by about, the id of an existing element, that lands on a child of the link
without href: event.target is the child, so handleNavLinkClick ends with a TypeError and
does nothing the claim says; the menu stays open, no link is marked, nothing is scrolled
and no address is pushed. The same click landing on the link itself does all of it. -/
theorem nav_click_on_child :
    iconClick.linkHref = some ("#" ++ "about") ∧
    (getElementById openPage.targets "about").isSome = true ∧
    (onNavLinkClick iconClick openPage).completion = Completion.typeError ∧
    (onNavLinkClick iconClick openPage).page = openPage ∧
    (onNavLinkClick iconClick openPage).page.isMenuOpen = true ∧
    (onNavLinkClick iconClick openPage).page.navLinks.map NavLink.active = [true, false] ∧
    (onNavLinkClick iconClick openPage).page.scrollRequests = [] ∧
    (onNavLinkClick iconClick openPage).page.history = [] ∧
    (onNavLinkClick { iconClick with child := none } openPage).completion = Completion.normal ∧
    (onNavLinkClick { iconClick with child := none } openPage).page.isMenuOpen = false ∧
    (onNavLinkClick { iconClick with child := none } openPage).page.navLinks.map NavLink.active =
      [false, true] ∧
    (onNavLinkClick { iconClick with child := none } openPage).page.scrollRequests = [530] ∧
    (onNavLinkClick { iconClick with child := none } openPage).page.history = ["#about"] := by
  decide

/-- Clicks whose href tail names no element are ignored: nothing is scrolled, pushed or
changed, and the handler finishes normally. -/
theorem handleNavLinkClick_unknown (p : Page) (h : String)
    (hf : getElementById p.targets (h.drop 1) = none) :
    handleNavLinkClick (some h) p =
      { page := p, defaultPrevented := true, completion := Completion.normal } := by
  simp [handleNavLinkClick, hf]

/-- C9, where the code departs from it. A click whose target has no href attribute ends
handleNavLinkClick with a TypeError (the page itself is unchanged); and a click on a
link whose href has no fragment but whose tail after the first character is the id of
an element is not ignored: the menu is closed, a scroll is requested and the href is
pushed. -/
theorem nav_click_missing_href :
    (handleNavLinkClick none samplePage).completion = Completion.typeError ∧
    (handleNavLinkClick none samplePage).page = samplePage ∧
    (handleNavLinkClick (some "/about") openPage).completion = Completion.normal ∧
    (handleNavLinkClick (some "/about") openPage).page.isMenuOpen = false ∧
    openPage.isMenuOpen = true ∧
    (handleNavLinkClick (some "/about") openPage).page.scrollRequests = [530] ∧
    (handleNavLinkClick (some "/about") openPage).page.history = ["/about"] := by
  decide

/-! ## Lemmas on throttle -/

theorem ThrottleInv.init (α : Type) (limit : Nat) : ThrottleInv limit (ThrottleState.init α) := by
  simp [ThrottleInv, ThrottleState.init]

theorem ThrottleInv.step {α : Type} (limit : Nat) (s s1 : ThrottleState α) (e : ThrottleEvent α)
    (hinv : ThrottleInv limit s) (hstep : s.step limit e = some s1) : ThrottleInv limit s1 := by
  obtain ⟨hnow, hpair, hset, hunset⟩ := hinv
  cases e with
  | call t args =>
    simp only [ThrottleState.step] at hstep
    by_cases ht : t < s.now
    · simp [ht] at hstep
    · rw [if_neg ht] at hstep
      have hle : s.now ≤ t := Nat.le_of_not_lt ht
      cases hth : s.inThrottle with
      | false =>
        obtain ⟨hp, hold⟩ := hunset hth
        simp only [hth, Bool.not_false, if_true, Option.some.injEq] at hstep
        subst hstep
        refine ⟨?_, ?_, ?_, ?_⟩
        · intro x hx
          simp only [List.mem_append, List.mem_singleton] at hx
          rcases hx with hx | rfl
          · exact Nat.le_trans (hnow x hx) hle
          · exact Nat.le_refl _
        · rw [List.pairwise_append]
          refine ⟨hpair, List.pairwise_singleton _ _, ?_⟩
          intro x hx y hy
          simp only [List.mem_singleton] at hy
          subst hy
          exact Nat.le_trans (hold x hx) hle
        · intro _
          exact ⟨s.invoked, (t, args), rfl, by simp [hp]⟩
        · intro hc
          simp at hc
      | true =>
        simp only [hth, Bool.not_true, Bool.false_eq_true, if_false, Option.some.injEq] at hstep
        subst hstep
        refine ⟨?_, hpair, ?_, ?_⟩
        · intro x hx
          exact Nat.le_trans (hnow x hx) hle
        · intro _
          exact hset hth
        · intro hc
          simp [hth] at hc
  | timer t =>
    simp only [ThrottleState.step] at hstep
    by_cases ht : t < s.now
    · simp [ht] at hstep
    · rw [if_neg ht] at hstep
      have hle : s.now ≤ t := Nat.le_of_not_lt ht
      cases hth : s.inThrottle with
      | false =>
        obtain ⟨hp, _⟩ := hunset hth
        simp [hp] at hstep
      | true =>
        obtain ⟨earlier, last, hinvk, hp⟩ := hset hth
        rw [hp] at hstep
        by_cases hd : t < last.1 + limit
        · simp [hd] at hstep
        · simp only [hd, if_false, Option.some.injEq] at hstep
          subst hstep
          have hdue : last.1 + limit ≤ t := Nat.le_of_not_lt hd
          refine ⟨?_, hpair, ?_, ?_⟩
          · intro x hx
            exact Nat.le_trans (hnow x hx) hle
          · intro hc
            simp at hc
          · intro _
            refine ⟨rfl, ?_⟩
            intro x hx
            show x.1 + limit ≤ t
            have hx0 : x ∈ s.invoked := hx
            rw [hinvk] at hx0
            simp only [List.mem_append, List.mem_singleton] at hx0
            rcases hx0 with hx1 | rfl
            · have hp2 := hpair
              rw [hinvk, List.pairwise_append] at hp2
              have := hp2.2.2 x hx1 last (by simp)
              omega
            · exact hdue

theorem ThrottleInv.run {α : Type} (limit : Nat) (evs : List (ThrottleEvent α))
    (s s1 : ThrottleState α) (hinv : ThrottleInv limit s)
    (hrun : s.run limit evs = some s1) : ThrottleInv limit s1 := by
  induction evs generalizing s with
  | nil =>
    simp only [ThrottleState.run, Option.some.injEq] at hrun
    exact hrun ▸ hinv
  | cons e es ih =>
    simp only [ThrottleState.run] at hrun
    cases hstep : s.step limit e with
    | none => simp [hstep] at hrun
    | some s2 =>
      rw [hstep] at hrun
      exact ih s2 (ThrottleInv.step limit s s2 e hinv hstep) hrun

theorem ThrottleState.step_invoked {α : Type} (limit : Nat) (s s1 : ThrottleState α)
    (e : ThrottleEvent α) (hstep : s.step limit e = some s1) :
    ∃ added, s1.invoked = s.invoked ++ added ∧ added.Sublist (callsOf [e]) := by
  cases e with
  | call t args =>
    simp only [ThrottleState.step] at hstep
    by_cases ht : t < s.now
    · simp [ht] at hstep
    · rw [if_neg ht] at hstep
      cases hth : s.inThrottle with
      | false =>
        simp only [hth, Bool.not_false, if_true, Option.some.injEq] at hstep
        subst hstep
        exact ⟨[(t, args)], rfl, by simp [callsOf]⟩
      | true =>
        simp only [hth, Bool.not_true, Bool.false_eq_true, if_false, Option.some.injEq] at hstep
        subst hstep
        exact ⟨[], by simp, by simp⟩
  | timer t =>
    simp only [ThrottleState.step] at hstep
    by_cases ht : t < s.now
    · simp [ht] at hstep
    · rw [if_neg ht] at hstep
      cases hp : s.pending with
      | nil => simp [hp] at hstep
      | cons due rest =>
        rw [hp] at hstep
        by_cases hd : t < due
        · simp [hd] at hstep
        · simp only [hd, if_false, Option.some.injEq] at hstep
          subst hstep
          exact ⟨[], by simp, by simp⟩

theorem callsOf_cons {α : Type} (e : ThrottleEvent α) (es : List (ThrottleEvent α)) :
    callsOf (e :: es) = callsOf [e] ++ callsOf es := by
  cases e <;> simp [callsOf]

theorem ThrottleState.run_invoked {α : Type} (limit : Nat) (evs : List (ThrottleEvent α))
    (s s1 : ThrottleState α) (hrun : s.run limit evs = some s1) :
    ∃ added, s1.invoked = s.invoked ++ added ∧ added.Sublist (callsOf evs) := by
  induction evs generalizing s with
  | nil =>
    simp only [ThrottleState.run, Option.some.injEq] at hrun
    exact ⟨[], by simp [hrun], by simp [callsOf]⟩
  | cons e es ih =>
    simp only [ThrottleState.run] at hrun
    cases hstep : s.step limit e with
    | none => simp [hstep] at hrun
    | some s2 =>
      rw [hstep] at hrun
      obtain ⟨a1, h1, hs1⟩ := ThrottleState.step_invoked limit s s2 e hstep
      obtain ⟨a2, h2, hs2⟩ := ih s2 hrun
      refine ⟨a1 ++ a2, by rw [h2, h1, List.append_assoc], ?_⟩
      rw [callsOf_cons]
      exact List.Sublist.append hs1 hs2

/-- From the fresh closure the first invocation of func is the first call. -/
theorem ThrottleState.run_first {α : Type} (limit : Nat) (evs : List (ThrottleEvent α))
    (s : ThrottleState α) (hrun : (ThrottleState.init α).run limit evs = some s) :
    (callsOf evs).head? = s.invoked.head? := by
  cases evs with
  | nil =>
    simp only [ThrottleState.run, Option.some.injEq] at hrun
    subst hrun
    simp [callsOf, ThrottleState.init]
  | cons e es =>
    cases e with
    | timer t => simp [ThrottleState.run, ThrottleState.step, ThrottleState.init] at hrun
    | call t args =>
      simp only [ThrottleState.run, ThrottleState.step, ThrottleState.init, Nat.not_lt_zero,
        if_false, Bool.not_false, if_true] at hrun
      obtain ⟨added, h1, _⟩ := ThrottleState.run_invoked limit es _ s hrun
      rw [h1]
      simp [callsOf]

/-- C10. For every limit and every sequence of events on the function returned by
throttle(func, limit) that can happen (time does not run backwards, a timer callback
runs no earlier than it is due): the first invocation of func is the first call, at
the time of that call and with its arguments; func is invoked only inside calls, in
order, with the arguments of the call (the invocations are a sublist of the calls),
so there are no more invocations than calls; two invocations are at least limit ms
apart; and a further call made fewer than limit ms after the last invocation changes
nothing but the clock: func is not invoked and nothing is queued. -/
theorem throttle_drops_calls {α : Type} (limit : Nat) (evs : List (ThrottleEvent α))
    (s : ThrottleState α) (hrun : (ThrottleState.init α).run limit evs = some s) :
    (callsOf evs).head? = s.invoked.head? ∧
    s.invoked.Sublist (callsOf evs) ∧
    s.invoked.length ≤ (callsOf evs).length ∧
    s.invoked.Pairwise (fun x y => x.1 + limit ≤ y.1) ∧
    (∀ (t : Nat) (args : α) (last : Nat × α),
      s.invoked.getLast? = some last → s.now ≤ t → t < last.1 + limit →
      s.step limit (ThrottleEvent.call t args) = some { s with now := t }) := by
  have hinv := ThrottleInv.run limit evs _ s (ThrottleInv.init α limit) hrun
  obtain ⟨added, h1, hsub⟩ := ThrottleState.run_invoked limit evs _ s hrun
  have hsub2 : s.invoked.Sublist (callsOf evs) := by
    rw [h1]; simpa [ThrottleState.init] using hsub
  refine ⟨ThrottleState.run_first limit evs s hrun, hsub2, hsub2.length_le, hinv.2.1, ?_⟩
  intro t args last hlast hnow hlt
  have hmem := List.mem_of_getLast?_eq_some hlast
  cases hth : s.inThrottle with
  | false =>
    have := (hinv.2.2.2 hth).2 last hmem
    omega
  | true =>
    have ht : ¬ t < s.now := Nat.not_lt.mpr hnow
    simp [ThrottleState.step, ht, hth]

/-- C10 at a burst on a function throttled to 16 ms: of the calls at 0, 5, 20 and 30 ms
the ones at 0 and 20 invoke func. -/
theorem throttle_drops_calls_witness :
    ((ThrottleState.init String).run 16 sampleBurst =
      some { now := 30, inThrottle := true, pending := [36], invoked := [(0, "a"), (20, "c")] }) ∧
    [(0, "a"), (20, "c")].Sublist (callsOf sampleBurst) ∧
    [(0, "a"), (20, "c")].Pairwise (fun x y => x.1 + 16 ≤ y.1) :=
  have h : (ThrottleState.init String).run 16 sampleBurst =
      some { now := 30, inThrottle := true, pending := [36], invoked := [(0, "a"), (20, "c")] } := by
    decide
  ⟨h, (throttle_drops_calls 16 sampleBurst _ h).2.1, (throttle_drops_calls 16 sampleBurst _ h).2.2.2.1⟩

/-! ## Lemmas on the active section -/

theorem sectionContains_iff (s : Int) (e : Element) :
    sectionContains s e = true ↔
      getOffsetTop e ≤ s + 130 ∧ s + 130 < getOffsetTop e + e.offsetHeight := by
  simp only [sectionContains, config, Bool.and_eq_true, decide_eq_true_eq]
  constructor <;> intro h <;> constructor <;> omega

theorem findCurrentSection_none (s : Int) (sections : List Element)
    (h : ∀ e ∈ sections, sectionContains s e = false) :
    findCurrentSection s sections = "" := by
  unfold findCurrentSection
  rw [foldl_section_last]
  have hf : sections.filter (sectionContains s) = [] := by
    rw [List.filter_eq_nil_iff]
    intro e he
    simp [h e he]
  simp [hf]

theorem findCurrentSection_mem (s : Int) (sections : List Element)
    (h : findCurrentSection s sections ≠ "") :
    ∃ e ∈ sections, sectionContains s e = true ∧ findCurrentSection s sections = e.id := by
  unfold findCurrentSection at h ⊢
  rw [foldl_section_last] at h ⊢
  cases hl : (sections.filter (sectionContains s)).getLast? with
  | none => simp [hl] at h
  | some last =>
    have hmem := List.mem_of_getLast?_eq_some hl
    rw [List.mem_filter] at hmem
    exact ⟨last, hmem.1, hmem.2, by simp⟩

/-- C14. For every scroll offset s and page: when the isScrolling guard is set, or no
section has top <= s + 130 < top + height (top its document offset), updateActiveSection
changes nothing, so currentSection and the active mark of every nav link are as before;
and whenever it changes currentSection, the new value is the id of a section with that
containment, the nav links are the same links, and afterwards a link is active iff its
href is the hash sign followed by that id. -/
theorem active_section_update (s : Int) (p : Page) :
    ((p.isScrolling = true ∨
        ∀ e ∈ p.sections,
          ¬ (getOffsetTop e ≤ s + 130 ∧ s + 130 < getOffsetTop e + e.offsetHeight)) →
      updateActiveSection s p = p ∧
      (updateActiveSection s p).currentSection = p.currentSection ∧
      (updateActiveSection s p).navLinks = p.navLinks) ∧
    ((updateActiveSection s p).currentSection ≠ p.currentSection →
      ∃ e ∈ p.sections,
        (getOffsetTop e ≤ s + 130 ∧ s + 130 < getOffsetTop e + e.offsetHeight) ∧
        (updateActiveSection s p).currentSection = e.id ∧
        (updateActiveSection s p).navLinks.map NavLink.href = p.navLinks.map NavLink.href ∧
        ∀ l ∈ (updateActiveSection s p).navLinks,
          (l.active = true ↔ l.href = some ("#" ++ e.id))) := by
  constructor
  · intro h
    have hp : updateActiveSection s p = p := by
      rcases h with h | h
      · simp [updateActiveSection, h]
      · have hnone : findCurrentSection s p.sections = "" := by
          apply findCurrentSection_none
          intro e he
          have := h e he
          rw [← sectionContains_iff] at this
          simpa using this
        simp [updateActiveSection, hnone]
    simp [hp]
  · intro hchange
    by_cases hs : p.isScrolling = true
    · simp [updateActiveSection, hs] at hchange
    · by_cases hc : findCurrentSection s p.sections ≠ "" ∧
          findCurrentSection s p.sections ≠ p.currentSection
      · obtain ⟨e, he, hcont, hid⟩ := findCurrentSection_mem s p.sections hc.1
        have hupd : updateActiveSection s p =
            updateActiveNavLink ("#" ++ findCurrentSection s p.sections)
              { p with currentSection := findCurrentSection s p.sections } := by
          simp [updateActiveSection, hs, hc]
        refine ⟨e, he, (sectionContains_iff s e).mp hcont, ?_, ?_, ?_⟩
        · rw [hupd]; simp [updateActiveNavLink, hid]
        · rw [hupd]; simp [updateActiveNavLink, Function.comp_def]
        · intro l hl
          rw [hupd] at hl
          simp only [updateActiveNavLink, List.mem_map] at hl
          obtain ⟨l0, _, rfl⟩ := hl
          simp [hid]
      · have hupd : updateActiveSection s p = p := by
          simp only [updateActiveSection, hs, Bool.false_eq_true, if_false]
          rw [if_neg hc]
        exact absurd (by rw [hupd]) hchange

/-- C14 at the sample page: scrolled to 700 the section about becomes current and its
link alone is active; with the guard set nothing changes. -/
theorem active_section_update_witness :
    (updateActiveSection 700 { samplePage with isScrolling := true } =
      { samplePage with isScrolling := true }) ∧
    ∃ e ∈ samplePage.sections,
      (getOffsetTop e ≤ 700 + 130 ∧ 700 + 130 < getOffsetTop e + e.offsetHeight) ∧
      (updateActiveSection 700 samplePage).currentSection = e.id ∧
      (updateActiveSection 700 samplePage).navLinks.map NavLink.href =
        samplePage.navLinks.map NavLink.href ∧
      ∀ l ∈ (updateActiveSection 700 samplePage).navLinks,
        (l.active = true ↔ l.href = some ("#" ++ e.id)) :=
  ⟨((active_section_update 700 { samplePage with isScrolling := true }).1 (Or.inl rfl)).1,
   (active_section_update 700 samplePage).2 (by decide)⟩

/-! ## Lemmas on the reveal observer -/

theorem observeEntries_eq (k : Nat) (entries : List ObserverEntry) (s : ObserverState) :
    observeEntries k entries s =
      { observed := s.observed.filter (fun x => !reveals x entries)
        timers := s.timers ++ revealTimers k entries } := by
  induction entries generalizing k s with
  | nil => simp [observeEntries, revealTimers, reveals]
  | cons e rest ih =>
    rw [observeEntries, ih]
    cases hi : e.isIntersecting with
    | false => simp [observeEntry, hi, revealTimers, reveals]
    | true =>
      simp only [observeEntry, hi, if_true, unobserve, addClassWithDelay, revealTimers, config,
        List.filter_filter, List.append_assoc, List.singleton_append]
      congr 1
      apply List.filter_congr
      intro x _
      by_cases hx : x = e.target
      · simp [reveals, hx, hi]
      · have hx2 : ¬ e.target = x := fun h => hx h.symm
        simp [reveals, hx, hx2]

theorem mem_revealTimers (k : Nat) (entries : List ObserverEntry) (tm : ClassTimer) :
    tm ∈ revealTimers k entries ↔
      ∃ i e, entries[i]? = some e ∧ e.isIntersecting = true ∧
        tm = { target := e.target, className := "fade-in", delay := (k + i) * 100 } := by
  induction entries generalizing k with
  | nil => simp [revealTimers]
  | cons x rest ih =>
    have hshift : (∃ i e, rest[i]? = some e ∧ e.isIntersecting = true ∧
          tm = { target := e.target, className := "fade-in", delay := (k + 1 + i) * 100 }) ↔
        ∃ i e, (x :: rest)[i + 1]? = some e ∧ e.isIntersecting = true ∧
          tm = { target := e.target, className := "fade-in", delay := (k + (i + 1)) * 100 } := by
      constructor
      · rintro ⟨i, e, h1, h2, h3⟩
        exact ⟨i, e, by simpa using h1, h2, by rw [h3]; congr 2; omega⟩
      · rintro ⟨i, e, h1, h2, h3⟩
        exact ⟨i, e, by simpa using h1, h2, by rw [h3]; congr 2; omega⟩
    constructor
    · intro h
      unfold revealTimers at h
      by_cases hi : x.isIntersecting = true
      · rw [if_pos hi] at h
        rcases List.mem_cons.mp h with h | h
        · exact ⟨0, x, by simp, hi, by simpa using h⟩
        · obtain ⟨i, e, h1, h2, h3⟩ := hshift.mp ((ih (k + 1)).mp h)
          exact ⟨i + 1, e, h1, h2, h3⟩
      · rw [if_neg hi] at h
        obtain ⟨i, e, h1, h2, h3⟩ := hshift.mp ((ih (k + 1)).mp h)
        exact ⟨i + 1, e, h1, h2, h3⟩
    · rintro ⟨i, e, h1, h2, h3⟩
      unfold revealTimers
      cases i with
      | zero =>
        simp only [List.getElem?_cons_zero, Option.some.injEq] at h1
        subst h1
        rw [if_pos h2, h3]
        simp
      | succ j =>
        have hrest : tm ∈ revealTimers (k + 1) rest :=
          (ih (k + 1)).mpr (hshift.mpr ⟨j, e, h1, h2, h3⟩)
        by_cases hi : x.isIntersecting = true
        · rw [if_pos hi]; exact List.mem_cons_of_mem _ hrest
        · rw [if_neg hi]; exact hrest

theorem reveals_of_getElem? (entries : List ObserverEntry) (i : Nat) (e : ObserverEntry)
    (h : entries[i]? = some e) (hi : e.isIntersecting = true) :
    reveals e.target entries = true := by
  unfold reveals
  rw [List.any_eq_true]
  exact ⟨e, List.getElem?_mem h, by simp [hi]⟩

theorem deliver_unobserved (s s1 : ObserverState) (entries : List ObserverEntry) (x : Nat)
    (hx : x ∉ s.observed) (hd : deliver s entries = some s1) :
    reveals x entries = false ∧ x ∉ s1.observed := by
  unfold deliver at hd
  by_cases hall : entries.all (fun e => decide (e.target ∈ s.observed)) = true
  · rw [if_pos hall] at hd
    simp only [Option.some.injEq] at hd
    subst hd
    constructor
    · rw [Bool.eq_false_iff]
      intro hr
      unfold reveals at hr
      rw [List.any_eq_true] at hr
      obtain ⟨e, he, hc⟩ := hr
      rw [List.all_eq_true] at hall
      have h1 := hall e he
      simp only [Bool.and_eq_true, decide_eq_true_eq] at hc h1
      exact hx (hc.1 ▸ h1)
    · rw [observerCallback, observeEntries_eq]
      intro hmem
      exact hx (List.mem_filter.mp hmem).1
  · rw [if_neg hall] at hd
    exact absurd hd (by simp)

theorem deliverAll_unobserved (batches : List (List ObserverEntry)) (s s1 : ObserverState)
    (x : Nat) (hx : x ∉ s.observed) (hd : deliverAll s batches = some s1) :
    batches.filter (reveals x) = [] := by
  induction batches generalizing s with
  | nil => rfl
  | cons b rest ih =>
    simp only [deliverAll] at hd
    cases hb : deliver s b with
    | none => simp [hb] at hd
    | some s2 =>
      rw [hb] at hd
      obtain ⟨hr, hx2⟩ := deliver_unobserved s s2 b x hx hb
      rw [List.filter_cons, hr]
      simpa using ih s2 hx2 hd

theorem deliverAll_once (batches : List (List ObserverEntry)) (s s1 : ObserverState)
    (x : Nat) (hd : deliverAll s batches = some s1) :
    (batches.filter (reveals x)).length ≤ 1 := by
  induction batches generalizing s with
  | nil => simp
  | cons b rest ih =>
    simp only [deliverAll] at hd
    cases hb : deliver s b with
    | none => simp [hb] at hd
    | some s2 =>
      rw [hb] at hd
      cases hr : reveals x b with
      | false =>
        rw [List.filter_cons, hr]
        simpa using ih s2 hd
      | true =>
        have hs2 : s2 = observerCallback b s := by
          unfold deliver at hb
          by_cases hall : b.all (fun e => decide (e.target ∈ s.observed)) = true
          · rw [if_pos hall] at hb
            exact (Option.some.inj hb).symm
          · rw [if_neg hall] at hb
            exact absurd hb (by simp)
        have hx2 : x ∉ s2.observed := by
          rw [hs2, observerCallback, observeEntries_eq]
          intro hmem
          have := (List.mem_filter.mp hmem).2
          simp [hr] at this
        rw [List.filter_cons, hr, if_pos rfl, deliverAll_unobserved rest s2 s1 x hx2 hd]
        simp

/-- C13. For every batch of entries reported to the observer callback: the timers set
are exactly one per intersecting entry, adding fade-in to its element after its index in
the batch times 100 ms; each intersecting entry has its element removed from
observation; an entry that is not intersecting changes nothing, and an element without
intersecting entry in the batch gets no timer and stays observed if it was; so over any
sequence of delivered batches an element is revealed by at most one of them. -/
theorem reveal_batch (s : ObserverState) (entries : List ObserverEntry) :
    (observerCallback entries s).timers = s.timers ++ revealTimers 0 entries ∧
    (∀ tm, tm ∈ revealTimers 0 entries ↔
      ∃ i e, entries[i]? = some e ∧ e.isIntersecting = true ∧
        tm = { target := e.target, className := "fade-in", delay := i * 100 }) ∧
    (∀ i e, entries[i]? = some e → e.isIntersecting = true →
      { target := e.target, className := "fade-in", delay := i * config.animationDelay } ∈
        (observerCallback entries s).timers ∧
      e.target ∉ (observerCallback entries s).observed) ∧
    (∀ i e, entries[i]? = some e → e.isIntersecting = false →
      ∀ st : ObserverState, observeEntry i e st = st) ∧
    (∀ x, reveals x entries = false →
      (x ∈ (observerCallback entries s).observed ↔ x ∈ s.observed) ∧
      ∀ tm ∈ revealTimers 0 entries, tm.target ≠ x) ∧
    (∀ (batches : List (List ObserverEntry)) (s1 : ObserverState) (x : Nat),
      deliverAll s batches = some s1 → (batches.filter (reveals x)).length ≤ 1) := by
  have hmem : ∀ tm, tm ∈ revealTimers 0 entries ↔
      ∃ i e, entries[i]? = some e ∧ e.isIntersecting = true ∧
        tm = { target := e.target, className := "fade-in", delay := i * 100 } := by
    intro tm
    simpa using mem_revealTimers 0 entries tm
  have heq := observeEntries_eq 0 entries s
  refine ⟨?_, hmem, ?_, ?_, ?_, ?_⟩
  · rw [observerCallback, heq]
  · intro i e he hi
    constructor
    · rw [observerCallback, heq]
      apply List.mem_append_right
      exact (hmem _).mpr ⟨i, e, he, hi, by simp [config]⟩
    · rw [observerCallback, heq]
      intro hin
      have := (List.mem_filter.mp hin).2
      simp [reveals_of_getElem? entries i e he hi] at this
  · intro i e _ hi st
    simp [observeEntry, hi]
  · intro x hx
    constructor
    · rw [observerCallback, heq]
      simp [List.mem_filter, hx]
    · intro tm htm hxt
      obtain ⟨i, e, he, hi, rfl⟩ := (hmem tm).mp htm
      have := reveals_of_getElem? entries i e he hi
      simp only at hxt
      rw [hxt, hx] at this
      exact absurd this (by simp)
  · intro batches s1 x hd
    exact deliverAll_once batches s s1 x hd

/-- C13 at the sample batch: the elements 4 and 9 get fade-in after 0 and 200 ms and
leave observation, the element 7 stays observed, and of the sample batch followed by
a batch in which 7 enters the viewport only the first reveals the element 4. -/
theorem reveal_batch_witness :
    (observerCallback sampleBatch sampleObserver).timers =
      [{ target := 4, className := "fade-in", delay := 0 },
       { target := 9, className := "fade-in", delay := 200 }] ∧
    (observerCallback sampleBatch sampleObserver).observed = [7] ∧
    ([sampleBatch, [{ target := 7, isIntersecting := true }]].filter (reveals 4)).length ≤ 1 :=
  ⟨(reveal_batch sampleObserver sampleBatch).1.trans (by decide),
   by decide,
   (reveal_batch sampleObserver sampleBatch).2.2.2.2.2
     [sampleBatch, [{ target := 7, isIntersecting := true }]]
     { observed := [], timers :=
        [{ target := 4, className := "fade-in", delay := 0 },
         { target := 9, className := "fade-in", delay := 200 },
         { target := 7, className := "fade-in", delay := 0 }] } 4 (by decide)⟩

/-! ## Lemmas on debounce -/

theorem debounceInv_init (α : Type) : DebounceInv (DebounceState.init α) := by
  simp [DebounceInv, DebounceState.init]

theorem clearTimeout_of_inv {α : Type} (s : DebounceState α) (hinv : DebounceInv s) :
    clearTimeout s.timeout s.pending = [] := by
  rcases hinv with h | ⟨tm, hp, ht⟩
  · rw [h]
    cases s.timeout <;> simp [clearTimeout]
  · rw [hp, ht]
    simp [clearTimeout]

/-- A call on a closure with the invariant, immediate not set: the pending timer is
cleared, a new one due wait after the call replaces it, func is not invoked. -/
theorem DebounceState.step_call {α : Type} (wait : Nat) (s : DebounceState α)
    (hinv : DebounceInv s) (t : Nat) (args : α) (ht : s.now ≤ t) :
    s.step wait false (DebounceEvent.call t args) =
      some
        { now := t
          timeout := some s.nextHandle
          nextHandle := s.nextHandle + 1
          pending := [{ handle := s.nextHandle, due := t + wait, args := args }]
          invoked := s.invoked } := by
  have hlt : ¬ t < s.now := Nat.not_lt.mpr ht
  simp [DebounceState.step, hlt, clearTimeout_of_inv s hinv]

theorem debounceInv_step {α : Type} (wait : Nat) (s s1 : DebounceState α)
    (e : DebounceEvent α) (hinv : DebounceInv s) (hstep : s.step wait false e = some s1) :
    DebounceInv s1 := by
  cases e with
  | call t args =>
    by_cases ht : t < s.now
    · simp [DebounceState.step, ht] at hstep
    · rw [DebounceState.step_call wait s hinv t args (Nat.le_of_not_lt ht)] at hstep
      simp only [Option.some.injEq] at hstep
      subst hstep
      exact Or.inr ⟨_, rfl, rfl⟩
  | timer t =>
    simp only [DebounceState.step] at hstep
    by_cases ht : t < s.now
    · simp [ht] at hstep
    · rw [if_neg ht] at hstep
      rcases hinv with h | ⟨tm, hp, _⟩
      · simp [h] at hstep
      · rw [hp] at hstep
        by_cases hd : t < tm.due
        · simp [hd] at hstep
        · simp only [hd, if_false, Option.some.injEq] at hstep
          subst hstep
          exact Or.inl rfl

theorem debounceInv_run {α : Type} (wait : Nat) (evs : List (DebounceEvent α))
    (s s1 : DebounceState α) (hinv : DebounceInv s)
    (hrun : s.run wait false evs = some s1) : DebounceInv s1 := by
  induction evs generalizing s with
  | nil =>
    simp only [DebounceState.run, Option.some.injEq] at hrun
    exact hrun ▸ hinv
  | cons e es ih =>
    simp only [DebounceState.run] at hrun
    cases hstep : s.step wait false e with
    | none => simp [hstep] at hrun
    | some s2 =>
      rw [hstep] at hrun
      exact ih s2 (debounceInv_step wait s s2 e hinv hstep) hrun

/-- A burst on a closure with the invariant: every call is accepted, func is not invoked,
and the one timer left pending is due wait after the last call and holds its arguments. -/
theorem DebounceState.run_burst {α : Type} (wait : Nat) (c : Nat × α) (cs : List (Nat × α))
    (s : DebounceState α) (last : Nat × α) (hinv : DebounceInv s)
    (hburst : IsBurst wait (c :: cs)) (hlast : (c :: cs).getLast? = some last)
    (hstart : s.now ≤ c.1) :
    ∃ s1, s.run wait false (burstEvents (c :: cs)) = some s1 ∧
      s1.invoked = s.invoked ∧ s1.now = last.1 ∧
      ∃ h, s1.pending = [{ handle := h, due := last.1 + wait, args := last.2 }] := by
  induction cs generalizing s c with
  | nil =>
    simp only [List.getLast?_singleton, Option.some.injEq] at hlast
    subst hlast
    refine ⟨{ now := c.1
              timeout := some s.nextHandle
              nextHandle := s.nextHandle + 1
              pending := [{ handle := s.nextHandle, due := c.1 + wait, args := c.2 }]
              invoked := s.invoked }, ?_, rfl, rfl, s.nextHandle, rfl⟩
    simp only [burstEvents, List.map_cons, List.map_nil, DebounceState.run]
    rw [DebounceState.step_call wait s hinv c.1 c.2 hstart]
  | cons d ds ih =>
    obtain ⟨hle, _, hrest⟩ := hburst
    have hstep := DebounceState.step_call wait s hinv c.1 c.2 hstart
    have hinv2 := debounceInv_step wait s _ _ hinv hstep
    have hlast2 : (d :: ds).getLast? = some last := by
      rw [← hlast]; simp [List.getLast?_cons_cons]
    obtain ⟨s1, hrun, hinvk, hnow, h, hpend⟩ := ih d _ hinv2 hrest hlast2 hle
    refine ⟨s1, ?_, hinvk, hnow, h, hpend⟩
    have hev : burstEvents (c :: d :: ds) =
        DebounceEvent.call c.1 c.2 :: burstEvents (d :: ds) := by
      simp [burstEvents]
    rw [hev, DebounceState.run, hstep]
    exact hrun

theorem DebounceState.run_calls_invoked {α : Type} (wait : Nat) (calls : List (Nat × α))
    (s s1 : DebounceState α) (hrun : s.run wait false (burstEvents calls) = some s1) :
    s1.invoked = s.invoked := by
  induction calls generalizing s with
  | nil =>
    simp only [burstEvents, List.map_nil, DebounceState.run, Option.some.injEq] at hrun
    rw [← hrun]
  | cons c cs ih =>
    have hev : burstEvents (c :: cs) = DebounceEvent.call c.1 c.2 :: burstEvents cs := by
      simp [burstEvents]
    rw [hev, DebounceState.run] at hrun
    cases hstep : s.step wait false (DebounceEvent.call c.1 c.2) with
    | none => simp [hstep] at hrun
    | some s2 =>
      rw [hstep] at hrun
      have h2 : s2.invoked = s.invoked := by
        simp only [DebounceState.step] at hstep
        by_cases ht : c.1 < s.now
        · simp [ht] at hstep
        · simp only [ht, if_false, Bool.false_and, Bool.false_eq_true, Option.some.injEq] at hstep
          rw [← hstep]
      rw [ih s2 hrun, h2]

/-- C11. For every wait and every burst of one or more calls to the function returned
by debounce(func, wait), immediate not set, made after any earlier events, in which each
call follows the one before by less than wait ms: every call is accepted and func is not
invoked during the burst (after no prefix of it); no timer callback can run before wait
ms have passed since the last call; and the timer callback that runs then invokes func
once, with the arguments of the last call, and leaves no timer pending, so that no
second invocation follows. -/
theorem debounce_burst {α : Type} (wait : Nat) (pre : List (DebounceEvent α))
    (s0 : DebounceState α) (burst : List (Nat × α)) (first last : Nat × α)
    (hpre : (DebounceState.init α).run wait false pre = some s0)
    (hburst : IsBurst wait burst) (hfirst : burst.head? = some first)
    (hlast : burst.getLast? = some last) (hstart : s0.now ≤ first.1) :
    ∃ s1, s0.run wait false (burstEvents burst) = some s1 ∧
      s1.invoked = s0.invoked ∧
      (∀ (k : Nat) (sk : DebounceState α),
        s0.run wait false (burstEvents (burst.take k)) = some sk → sk.invoked = s0.invoked) ∧
      (∀ t, t < last.1 + wait → s1.step wait false (DebounceEvent.timer t) = none) ∧
      (∀ t, last.1 + wait ≤ t →
        ∃ s2, s1.step wait false (DebounceEvent.timer t) = some s2 ∧
          s2.invoked = s0.invoked ++ [(t, last.2)] ∧
          s2.pending = [] ∧
          ∀ t2, s2.step wait false (DebounceEvent.timer t2) = none) := by
  have hinv := debounceInv_run wait pre _ s0 (debounceInv_init α) hpre
  cases burst with
  | nil => simp at hfirst
  | cons c cs =>
    simp only [List.head?_cons, Option.some.injEq] at hfirst
    subst hfirst
    obtain ⟨s1, hrun, hinvk, hnow, h, hpend⟩ :=
      DebounceState.run_burst wait c cs s0 last hinv hburst hlast hstart
    refine ⟨s1, hrun, hinvk, ?_, ?_, ?_⟩
    · intro k sk hk
      exact DebounceState.run_calls_invoked wait _ s0 sk hk
    · intro t ht
      simp only [DebounceState.step, hpend]
      by_cases hn : t < s1.now
      · simp [hn]
      · simp [hn, ht]
    · intro t ht
      have hn : ¬ t < s1.now := by rw [hnow]; omega
      have hd : ¬ t < last.1 + wait := Nat.not_lt.mpr ht
      refine ⟨{ s1 with now := t, timeout := none, pending := [],
                        invoked := s1.invoked ++ [(t, last.2)] }, ?_, ?_, rfl, ?_⟩
      · simp [DebounceState.step, hpend, hn, hd]
      · simp [hinvk]
      · intro t2
        simp only [DebounceState.step]
        by_cases hn2 : t2 < t
        · simp [hn2]
        · simp [hn2]

/-- C11 at three resize events 100 ms apart on a function debounced to 250 ms: func runs
once, 250 ms after the third, with the arguments of the third. -/
theorem debounce_burst_witness :
    ∃ s1, (DebounceState.init String).run 250 false (burstEvents sampleResizes) = some s1 ∧
      s1.invoked = [] ∧
      (∀ (k : Nat) (sk : DebounceState String),
        (DebounceState.init String).run 250 false (burstEvents (sampleResizes.take k)) = some sk →
          sk.invoked = []) ∧
      (∀ t, t < 1200 + 250 → s1.step 250 false (DebounceEvent.timer t) = none) ∧
      (∀ t, 1200 + 250 ≤ t →
        ∃ s2, s1.step 250 false (DebounceEvent.timer t) = some s2 ∧
          s2.invoked = [] ++ [(t, "r3")] ∧
          s2.pending = [] ∧
          ∀ t2, s2.step 250 false (DebounceEvent.timer t2) = none) :=
  debounce_burst 250 [] (DebounceState.init String) sampleResizes (1000, "r1") (1200, "r3")
    rfl (by simp [IsBurst, sampleResizes]) rfl rfl (by decide)

/-! ## Lemmas on the status message -/

theorem showFormMessage_single (message type : String) (p : Page) (h : p.messages.length ≤ 1) :
    (showFormMessage message type p).messages =
      [{ uid := p.nextUid, text := message, kind := type }] := by
  have hd : p.messages.drop 1 = [] := List.drop_eq_nil_iff.mpr h
  simp [showFormMessage, hd]

/-- A timer callback leaves the document as it is or takes out the messages with the
identity it captured; it creates no element. -/
theorem MessageState.step_fire {s s1 : MessageState} {t index : Nat}
    (hstep : s.step (MessageEvent.fire t index) = some s1) :
    ∃ tm, s.timers[index]? = some tm ∧ tm.due ≤ t ∧
      s1.page.nextUid = s.page.nextUid ∧
      (s1.page.messages = s.page.messages ∨
        s1.page.messages = s.page.messages.filter (fun m => m.uid ≠ tm.uid)) := by
  simp only [MessageState.step] at hstep
  by_cases ht : t < s.now
  · simp [ht] at hstep
  · rw [if_neg ht] at hstep
    cases htm : s.timers[index]? with
    | none => simp [htm] at hstep
    | some tm =>
      rw [htm] at hstep
      by_cases hd : t < tm.due
      · simp [hd] at hstep
      · simp only [hd, if_false] at hstep
        refine ⟨tm, rfl, Nat.le_of_not_lt hd, ?_⟩
        cases tm with
        | fadeOut uid due =>
          by_cases ha : attached uid s.page = true
          · simp only [ha, if_true, Option.some.injEq] at hstep
            subst hstep
            exact ⟨rfl, Or.inl rfl⟩
          · simp only [ha, Bool.false_eq_true, if_false, Option.some.injEq] at hstep
            subst hstep
            exact ⟨rfl, Or.inl rfl⟩
        | remove uid due =>
          by_cases ha : attached uid s.page = true
          · simp only [ha, if_true, Option.some.injEq] at hstep
            subst hstep
            exact ⟨rfl, Or.inr rfl⟩
          · simp only [ha, Bool.false_eq_true, if_false, Option.some.injEq] at hstep
            subst hstep
            exact ⟨rfl, Or.inl rfl⟩

theorem MessageState.step_show {s s1 : MessageState} {t : Nat} {message type : String}
    (hstep : s.step (MessageEvent.showMessage t message type) = some s1) :
    s1.page = showFormMessage message type s.page ∧
    s1.timers = s.timers ++ [MessageTimer.fadeOut s.page.nextUid (t + 5000)] := by
  simp only [MessageState.step] at hstep
  by_cases ht : t < s.now
  · simp [ht] at hstep
  · simp only [ht, if_false, Option.some.injEq] at hstep
    subst hstep
    exact ⟨rfl, rfl⟩

theorem ownsUid_step (owner : FormMessage) (s s1 : MessageState) (e : MessageEvent)
    (hown : OwnsUid owner s) (hstep : s.step e = some s1) : OwnsUid owner s1 := by
  obtain ⟨hlt, huniq⟩ := hown
  cases e with
  | showMessage t message type =>
    obtain ⟨hpage, _⟩ := MessageState.step_show hstep
    rw [OwnsUid, hpage]
    constructor
    · simp only [showFormMessage]; omega
    · intro m hm hid
      simp only [showFormMessage, List.mem_append, List.mem_singleton] at hm
      rcases hm with hm | hm
      · exact huniq m (List.mem_of_mem_drop hm) hid
      · rw [hm] at hid
        simp only at hid
        omega
  | fire t index =>
    obtain ⟨tm, _, _, hnext, hmsgs⟩ := MessageState.step_fire hstep
    rw [OwnsUid, hnext]
    refine ⟨hlt, ?_⟩
    intro m hm hid
    rcases hmsgs with h | h
    · rw [h] at hm; exact huniq m hm hid
    · rw [h] at hm; exact huniq m (List.mem_filter.mp hm).1 hid

theorem ownsUid_run (owner : FormMessage) (evs : List MessageEvent) (s s1 : MessageState)
    (hown : OwnsUid owner s) (hrun : s.run evs = some s1) : OwnsUid owner s1 := by
  induction evs generalizing s with
  | nil =>
    simp only [MessageState.run, Option.some.injEq] at hrun
    exact hrun ▸ hown
  | cons e es ih =>
    simp only [MessageState.run] at hrun
    cases hstep : s.step e with
    | none => simp [hstep] at hrun
    | some s2 =>
      rw [hstep] at hrun
      exact ih s2 (ownsUid_step owner s s2 e hown hstep) hrun

theorem ownsUid_of_show (s s1 : MessageState) (t : Nat) (message type : String)
    (hinv : MessageInv s)
    (hstep : s.step (MessageEvent.showMessage t message type) = some s1) :
    OwnsUid { uid := s.page.nextUid, text := message, kind := type } s1 := by
  obtain ⟨hpage, _⟩ := MessageState.step_show hstep
  rw [OwnsUid, hpage]
  constructor
  · simp [showFormMessage]
  · intro m hm hid
    simp only [showFormMessage, List.mem_append, List.mem_singleton] at hm
    rcases hm with hm | hm
    · have := hinv.1 m (List.mem_of_mem_drop hm)
      simp only at hid
      omega
    · exact hm

theorem MessageState.step_fire_timers {s s1 : MessageState} {t index : Nat}
    (hstep : s.step (MessageEvent.fire t index) = some s1) :
    ∃ tm ∈ s.timers, ∀ x ∈ s1.timers, x ∈ s.timers ∨ x.uid = tm.uid := by
  simp only [MessageState.step] at hstep
  by_cases ht : t < s.now
  · simp [ht] at hstep
  · rw [if_neg ht] at hstep
    cases htm : s.timers[index]? with
    | none => simp [htm] at hstep
    | some tm =>
      rw [htm] at hstep
      by_cases hd : t < tm.due
      · simp [hd] at hstep
      · simp only [hd, if_false] at hstep
        refine ⟨tm, List.getElem?_mem htm, ?_⟩
        cases tm with
        | fadeOut uid due =>
          by_cases ha : attached uid s.page = true
          · simp only [ha, if_true, Option.some.injEq] at hstep
            subst hstep
            intro x hx
            simp only [List.mem_append, List.mem_singleton] at hx
            rcases hx with hx | hx
            · exact Or.inl (List.mem_of_mem_eraseIdx hx)
            · exact Or.inr (by rw [hx]; rfl)
          · simp only [ha, Bool.false_eq_true, if_false, Option.some.injEq] at hstep
            subst hstep
            intro x hx
            exact Or.inl (List.mem_of_mem_eraseIdx hx)
        | remove uid due =>
          by_cases ha : attached uid s.page = true
          · simp only [ha, if_true, Option.some.injEq] at hstep
            subst hstep
            intro x hx
            exact Or.inl (List.mem_of_mem_eraseIdx hx)
          · simp only [ha, Bool.false_eq_true, if_false, Option.some.injEq] at hstep
            subst hstep
            intro x hx
            exact Or.inl (List.mem_of_mem_eraseIdx hx)

theorem messageInv_step (s s1 : MessageState) (e : MessageEvent)
    (hinv : MessageInv s) (hstep : s.step e = some s1) : MessageInv s1 := by
  obtain ⟨hm, htm⟩ := hinv
  cases e with
  | showMessage t message type =>
    obtain ⟨hpage, htimers⟩ := MessageState.step_show hstep
    rw [MessageInv, hpage, htimers]
    constructor
    · intro m hmem
      simp only [showFormMessage, List.mem_append, List.mem_singleton] at hmem ⊢
      rcases hmem with h | h
      · have := hm m (List.mem_of_mem_drop h); omega
      · rw [h]; simp
    · intro x hx
      simp only [List.mem_append, List.mem_singleton] at hx
      simp only [showFormMessage]
      rcases hx with h | h
      · have := htm x h; omega
      · rw [h]; simp [MessageTimer.uid]
  | fire t index =>
    obtain ⟨tm, _, _, hnext, hmsgs⟩ := MessageState.step_fire hstep
    obtain ⟨tm2, htm2, htimers⟩ := MessageState.step_fire_timers hstep
    rw [MessageInv, hnext]
    constructor
    · intro m hmem
      rcases hmsgs with h | h
      · rw [h] at hmem; exact hm m hmem
      · rw [h] at hmem; exact hm m (List.mem_filter.mp hmem).1
    · intro x hx
      rcases htimers x hx with h | h
      · exact htm x h
      · rw [h]; exact htm tm2 htm2

theorem messageInv_run (evs : List MessageEvent) (s s1 : MessageState)
    (hinv : MessageInv s) (hrun : s.run evs = some s1) : MessageInv s1 := by
  induction evs generalizing s with
  | nil =>
    simp only [MessageState.run, Option.some.injEq] at hrun
    exact hrun ▸ hinv
  | cons e es ih =>
    simp only [MessageState.run] at hrun
    cases hstep : s.step e with
    | none => simp [hstep] at hrun
    | some s2 =>
      rw [hstep] at hrun
      exact ih s2 (messageInv_step s s2 e hinv hstep) hrun

theorem attached_iff_mem (owner : FormMessage) (s : MessageState) (hown : OwnsUid owner s) :
    attached owner.uid s.page = true ↔ owner ∈ s.page.messages := by
  unfold attached
  rw [List.any_eq_true]
  constructor
  · rintro ⟨m, hm, hid⟩
    have hid2 : m.uid = owner.uid := by simpa using hid
    exact hown.2 m hm hid2 ▸ hm
  · intro h
    exact ⟨owner, h, by simp⟩

theorem filter_uid_eq (owner : FormMessage) (s : MessageState) (hown : OwnsUid owner s) :
    s.page.messages.filter (fun m => decide (m.uid ≠ owner.uid)) =
      s.page.messages.filter (fun m => decide (m ≠ owner)) := by
  apply List.filter_congr
  intro m hm
  by_cases h : m.uid = owner.uid
  · have := hown.2 m hm h
    simp [h, this]
  · have hne : m ≠ owner := fun heq => h (heq ▸ rfl)
    simp [h, hne]

theorem filter_uid_detached (uid : Nat) (p : Page) (h : attached uid p = false) :
    p.messages.filter (fun m => decide (m.uid ≠ uid)) = p.messages := by
  rw [List.filter_eq_self]
  intro m hm
  have hnot : ¬ (p.messages.any (fun m => decide (m.uid = uid)) = true) := by
    unfold attached at h
    simp [h]
  rw [List.any_eq_true] at hnot
  have : ¬ m.uid = uid := fun heq => hnot ⟨m, hm, by simp [heq]⟩
  simp [this]

/-- The removal callback, once due, takes the element it captured out of the document
and nothing else, and is gone from the pending timers. -/
theorem MessageState.step_fire_remove (s : MessageState) (t index uid due : Nat)
    (hget : s.timers[index]? = some (MessageTimer.remove uid due))
    (hnow : s.now ≤ t) (hdue : due ≤ t) :
    s.step (MessageEvent.fire t index) =
      some
        { now := t
          page := { s.page with messages := s.page.messages.filter (fun m => decide (m.uid ≠ uid)) }
          timers := s.timers.eraseIdx index } := by
  have h1 : ¬ t < s.now := Nat.not_lt.mpr hnow
  have h2 : ¬ t < due := Nat.not_lt.mpr hdue
  cases ha : attached uid s.page with
  | true => simp [MessageState.step, h1, hget, MessageTimer.due, h2, ha, removeMessage]
  | false =>
    rw [filter_uid_detached uid s.page ha]
    simp [MessageState.step, h1, hget, MessageTimer.due, h2, ha]

/-- The fade-out callback, once due, leaves the document as it is and, when the element
it captured is still in the document, sets the removal callback for 300 ms later. -/
theorem MessageState.step_fire_fadeOut (s : MessageState) (t index uid due : Nat)
    (hget : s.timers[index]? = some (MessageTimer.fadeOut uid due))
    (hnow : s.now ≤ t) (hdue : due ≤ t) :
    s.step (MessageEvent.fire t index) =
      some
        { now := t
          page := s.page
          timers :=
            s.timers.eraseIdx index ++
              (if attached uid s.page then [MessageTimer.remove uid (t + 300)] else []) } := by
  have h1 : ¬ t < s.now := Nat.not_lt.mpr hnow
  have h2 : ¬ t < due := Nat.not_lt.mpr hdue
  cases ha : attached uid s.page <;>
    simp [MessageState.step, h1, hget, MessageTimer.due, h2, ha]

/-- C12. Status-message uniqueness. When the document holds at most one status message
before showFormMessage(message, type), it holds exactly one right after: the new one,
with the given text and type. The call sets one timer, for the new element, whose
identity no timer set earlier has. Whatever happens afterwards: the fade-out callback of
that element, once due, leaves the document as it is and sets the removal callback of
the element for 300 ms later when the element is still in the document; the removal
callback, once due, takes that element out of the document, whether or not other
messages are there, and takes out nothing else; every other message in the document
when a timer of the element runs is still there after it; and a message inserted by a
later call is another element and is inserted. -/
theorem message_uniqueness (s0 s1 : MessageState) (t : Nat) (message type : String)
    (hinv : MessageInv s0)
    (hshow : s0.step (MessageEvent.showMessage t message type) = some s1) :
    (s0.page.messages.length ≤ 1 →
      (showFormMessage message type s0.page).messages =
        [{ uid := s0.page.nextUid, text := message, kind := type }]) ∧
    s1.page = showFormMessage message type s0.page ∧
    s1.timers = s0.timers ++ [MessageTimer.fadeOut s0.page.nextUid (t + 5000)] ∧
    (∀ tm ∈ s0.timers, tm.uid ≠ s0.page.nextUid) ∧
    (∀ (evs : List MessageEvent) (s2 s3 : MessageState) (t2 index : Nat) (tm : MessageTimer),
      s1.run evs = some s2 → s2.timers[index]? = some tm → tm.uid = s0.page.nextUid →
      s2.step (MessageEvent.fire t2 index) = some s3 →
      ∀ m ∈ s2.page.messages,
        m ≠ { uid := s0.page.nextUid, text := message, kind := type } →
        m ∈ s3.page.messages) ∧
    (∀ (evs : List MessageEvent) (s2 s3 : MessageState) (t2 : Nat) (message2 type2 : String),
      s1.run evs = some s2 →
      s2.step (MessageEvent.showMessage t2 message2 type2) = some s3 →
      s2.page.nextUid ≠ s0.page.nextUid ∧
      { uid := s2.page.nextUid, text := message2, kind := type2 } ∈ s3.page.messages) ∧
    (∀ (evs : List MessageEvent) (s2 : MessageState) (t2 index due : Nat),
      s1.run evs = some s2 →
      s2.timers[index]? = some (MessageTimer.fadeOut s0.page.nextUid due) →
      s2.now ≤ t2 → due ≤ t2 →
      s2.step (MessageEvent.fire t2 index) =
        some
          { now := t2
            page := s2.page
            timers :=
              s2.timers.eraseIdx index ++
                (if ({ uid := s0.page.nextUid, text := message, kind := type } : FormMessage) ∈
                    s2.page.messages
                 then [MessageTimer.remove s0.page.nextUid (t2 + 300)] else []) }) ∧
    (∀ (evs : List MessageEvent) (s2 : MessageState) (t2 index due : Nat),
      s1.run evs = some s2 →
      s2.timers[index]? = some (MessageTimer.remove s0.page.nextUid due) →
      s2.now ≤ t2 → due ≤ t2 →
      s2.step (MessageEvent.fire t2 index) =
        some
          { now := t2
            page :=
              { s2.page with
                messages := s2.page.messages.filter (fun m =>
                  decide (m ≠ { uid := s0.page.nextUid, text := message, kind := type })) }
            timers := s2.timers.eraseIdx index } ∧
      ({ uid := s0.page.nextUid, text := message, kind := type } : FormMessage) ∉
        s2.page.messages.filter (fun m =>
          decide (m ≠ { uid := s0.page.nextUid, text := message, kind := type }))) := by
  obtain ⟨hpage, htimers⟩ := MessageState.step_show hshow
  have hown := ownsUid_of_show s0 s1 t message type hinv hshow
  refine ⟨showFormMessage_single message type s0.page, hpage, htimers, ?_, ?_, ?_, ?_, ?_⟩
  · intro tm htm
    exact Nat.ne_of_lt (hinv.2 tm htm)
  · intro evs s2 s3 t2 index tm hrun hget huid hfire m hm hne
    have hown2 := ownsUid_run _ evs s1 s2 hown hrun
    obtain ⟨tm2, hget2, _, _, hmsgs⟩ := MessageState.step_fire hfire
    rw [hget] at hget2
    simp only [Option.some.injEq] at hget2
    subst hget2
    rcases hmsgs with h | h
    · rw [h]; exact hm
    · rw [h, List.mem_filter]
      refine ⟨hm, ?_⟩
      have hmu : m.uid ≠ tm.uid := by
        intro heq
        exact hne (hown2.2 m hm (by rw [heq, huid]))
      simpa using hmu
  · intro evs s2 s3 t2 message2 type2 hrun hshow2
    have hown2 := ownsUid_run _ evs s1 s2 hown hrun
    obtain ⟨hpage2, _⟩ := MessageState.step_show hshow2
    constructor
    · have := hown2.1
      simp only at this
      omega
    · rw [hpage2]
      simp [showFormMessage]
  · intro evs s2 t2 index due hrun hget hnow hdue
    have hown2 := ownsUid_run _ evs s1 s2 hown hrun
    rw [MessageState.step_fire_fadeOut s2 t2 index _ due hget hnow hdue]
    have hiff := attached_iff_mem _ s2 hown2
    simp only at hiff
    by_cases hmem : ({ uid := s0.page.nextUid, text := message, kind := type } : FormMessage) ∈
        s2.page.messages
    · rw [if_pos hmem, if_pos (hiff.mpr hmem)]
    · have hna : ¬ attached s0.page.nextUid s2.page = true := fun h => hmem (hiff.mp h)
      rw [if_neg hmem, if_neg hna]
  · intro evs s2 t2 index due hrun hget hnow hdue
    have hown2 := ownsUid_run _ evs s1 s2 hown hrun
    constructor
    · rw [MessageState.step_fire_remove s2 t2 index _ due hget hnow hdue]
      have := filter_uid_eq _ s2 hown2
      simp only at this
      rw [this]
    · intro hmem
      have := (List.mem_filter.mp hmem).2
      simp at this

/-- C12 at the sample page and at the page holding two messages. On the sample page a
first message is shown at 0 ms and is then the only one; its fade-out callback runs at
5000 ms, a second message is shown at 5100 ms, and the removal callback of the first
runs at 5300 ms: the second message is still in the document. On the page with two
messages a new message is shown at 0 ms beside the second old one; its fade-out
callback at 5000 ms sets its removal callback, which at 5300 ms takes the new message
out and leaves the old one. -/
theorem message_uniqueness_witness :
    (showFormMessage "first" "info" samplePage).messages =
      [{ uid := 0, text := "first", kind := "info" }] ∧
    ({ uid := 1, text := "second", kind := "error" } : FormMessage) ∈
      (showFormMessage "second" "error" (showFormMessage "first" "info" samplePage)).messages ∧
    (showFormMessage "new" "success" crowdedMessages.page).messages =
      [{ uid := 1, text := "old two", kind := "error" },
       { uid := 2, text := "new", kind := "success" }] ∧
    MessageState.step
        { now := 0
          page := showFormMessage "new" "success" crowdedMessages.page
          timers := [MessageTimer.fadeOut 2 5000] }
        (MessageEvent.fire 5000 0) =
      some
        { now := 5000
          page := showFormMessage "new" "success" crowdedMessages.page
          timers := [MessageTimer.remove 2 5300] } ∧
    MessageState.step
        { now := 5000
          page := showFormMessage "new" "success" crowdedMessages.page
          timers := [MessageTimer.remove 2 5300] }
        (MessageEvent.fire 5300 0) =
      some
        { now := 5300
          page :=
            { showFormMessage "new" "success" crowdedMessages.page with
              messages := [{ uid := 1, text := "old two", kind := "error" }] }
          timers := [] } :=
  have h := message_uniqueness sampleMessages
    { now := 0
      page := showFormMessage "first" "info" samplePage
      timers := [MessageTimer.fadeOut 0 5000] }
    0 "first" "info" (by simp [MessageInv, sampleMessages, samplePage]) rfl
  have hc := message_uniqueness crowdedMessages
    { now := 0
      page := showFormMessage "new" "success" crowdedMessages.page
      timers := [MessageTimer.fadeOut 2 5000] }
    0 "new" "success" (by simp [MessageInv, crowdedMessages, samplePage]) rfl
  ⟨h.1 (by decide),
   h.2.2.2.2.1
     [MessageEvent.fire 5000 0, MessageEvent.showMessage 5100 "second" "error"]
     { now := 5100
       page := showFormMessage "second" "error" (showFormMessage "first" "info" samplePage)
       timers := [MessageTimer.remove 0 5300, MessageTimer.fadeOut 1 10100] }
     { now := 5300
       page := showFormMessage "second" "error" (showFormMessage "first" "info" samplePage)
       timers := [MessageTimer.fadeOut 1 10100] }
     5300 0 (MessageTimer.remove 0 5300) (by decide) rfl rfl (by decide)
     { uid := 1, text := "second", kind := "error" } (by decide) (by decide),
   by decide,
   (hc.2.2.2.2.2.2.1 [] _ 5000 0 5000 rfl rfl (by decide) (by decide)).trans (by decide),
   ((hc.2.2.2.2.2.2.2 [MessageEvent.fire 5000 0]
      { now := 5000
        page := showFormMessage "new" "success" crowdedMessages.page
        timers := [MessageTimer.remove 2 5300] }
      5300 0 5300 (by decide) rfl (by decide) (by decide)).1).trans (by decide)⟩

end Portfolio
